import Mathlib

/-!
Verification development for the pathio library (src/tree.rs).

The Rust code is shallowly embedded as follows:
* `AHashMap<String, V>` is modelled as an association list `List (String × V)`
  with unique keys; iteration order of the hash map (unspecified in Rust) is
  modelled by the list order, insertion appends, lookup takes the first match.
* `&mut self` methods returning `Result<R, E>` become pure functions
  `State → State × Except PathioError R`: the returned state is the value of
  `self` after the call, including the mutations a failing call performed
  before the failure point.
* `f32` depth is modelled as `Nat`: the source only ever stores `0.0` and
  adds `1.0`, which is exact for the integral values that can arise.
* string literals from the source are transcribed without quote punctuation.
* `format!(".||#:{}", n)` is modelled as `".||#:" ++ toString n`.
-/

set_option maxHeartbeats 1000000
set_option maxRecDepth 4000

/-- Error taxonomy of the library, from the `PathioError` enum in tree.rs. -/
inductive PathioError : Type where
  | FileConflict : PathioError
  | DuplicateName : String → PathioError
  | NameInUse : String → PathioError
  | InvalidPath : String → PathioError
  | NoDirectory : String → PathioError
  | NoFile : String → PathioError
deriving DecidableEq, Repr

/-- Model of `HashMap::contains_key`. -/
def containsKey {α : Type} (l : List (String × α)) (k : String) : Bool :=
  l.any (fun kv => kv.1 = k)

/-- Model of `HashMap::get` (first matching key). -/
def lookupKey {α : Type} (l : List (String × α)) (k : String) : Option α :=
  match l with
  | [] => none
  | kv :: rest => if kv.1 = k then some kv.2 else lookupKey rest k

/-- Model of `HashMap::insert`: replace the value at an existing key,
otherwise append a new entry. -/
def insertKey {α : Type} (l : List (String × α)) (k : String) (v : α) :
    List (String × α) :=
  if containsKey l k then l.map (fun kv => if kv.1 = k then (k, v) else kv)
  else l ++ [(k, v)]

/-- Model of `HashMap::remove` (drops the first matching entry). -/
def removeKey {α : Type} (l : List (String × α)) (k : String) :
    List (String × α) :=
  match l with
  | [] => []
  | kv :: rest => if kv.1 = k then rest else kv :: removeKey rest k

/-- Model of Rust `str::split_once('/')` on a list of characters: split at the
first slash, `none` when no slash occurs. -/
def splitOnceList (l : List Char) : Option (List Char × List Char) :=
  match l with
  | [] => none
  | c :: rest =>
    if c = '/' then some ([], rest)
    else (splitOnceList rest).map (fun p => (c :: p.1, p.2))

/-- Model of Rust `str::split_once('/')` on strings. -/
def splitOnce (s : String) : Option (String × String) :=
  (splitOnceList s.data).map (fun p => (String.mk p.1, String.mk p.2))

/-- Model of Rust `str::rsplit_once('/')` on strings: split at the last slash.
Implemented by splitting the reversed character list at its first slash. -/
def rsplitOnce (s : String) : Option (String × String) :=
  (splitOnceList s.data.reverse).map
    (fun p => (String.mk p.2.reverse, String.mk p.1.reverse))

theorem splitOnceList_none_iff (l : List Char) :
    splitOnceList l = none ↔ '/' ∉ l := by
  induction l with
  | nil => simp [splitOnceList]
  | cons c rest ih =>
    simp only [splitOnceList]
    by_cases hc : c = '/'
    · subst hc; simp
    · simp only [if_neg hc, Option.map_eq_none']
      rw [List.mem_cons]
      constructor
      · intro h hor
        rcases hor with h1 | h2
        · exact hc h1.symm
        · exact (ih.mp h) h2
      · intro h
        exact ih.mpr (fun hm => h (Or.inr hm))

theorem splitOnceList_append (a b : List Char) (ha : '/' ∉ a) :
    splitOnceList (a ++ '/' :: b) = some (a, b) := by
  induction a with
  | nil => simp [splitOnceList]
  | cons c rest ih =>
    have hc : c ≠ '/' := by
      intro h; exact ha (by simp [h])
    have hrest : '/' ∉ rest := fun hm => ha (List.mem_cons_of_mem _ hm)
    simp [splitOnceList, hc, ih hrest]

theorem splitOnceList_some_length {l a b : List Char}
    (h : splitOnceList l = some (a, b)) : b.length < l.length := by
  induction l generalizing a b with
  | nil => simp [splitOnceList] at h
  | cons c rest ih =>
    simp only [splitOnceList] at h
    by_cases hc : c = '/'
    · simp [hc] at h
      simp [← h.2]
    · simp only [if_neg hc, Option.map_eq_some'] at h
      rcases h with ⟨p, hp, he⟩
      have := ih (a := p.1) (b := p.2) (by rw [hp])
      have hb : b = p.2 := by
        have := congrArg Prod.snd he
        simpa using this.symm
      subst hb
      simpa using Nat.lt_succ_of_lt this

theorem splitOnce_some_length {s a b : String}
    (h : splitOnce s = some (a, b)) : b.data.length < s.data.length := by
  simp only [splitOnce, Option.map_eq_some'] at h
  rcases h with ⟨p, hp, he⟩
  have := splitOnceList_some_length (l := s.data) (a := p.1) (b := p.2)
    (by rw [hp])
  have hb : b = String.mk p.2 := by
    have := congrArg Prod.snd he
    simpa using this.symm
  subst hb
  simpa using this

theorem splitOnce_none_of_no_slash (s : String) (h : '/' ∉ s.data) :
    splitOnce s = none := by
  simp [splitOnce, splitOnceList_none_iff, h]

theorem data_append (a b : String) : (a ++ b).data = a.data ++ b.data := rfl

theorem splitOnce_append_no_slash (a b : String) (ha : '/' ∉ a.data) :
    splitOnce (a ++ "/" ++ b) = some (a, b) := by
  have hdata : (a ++ "/" ++ b).data = a.data ++ '/' :: b.data := by
    simp [data_append]
  simp [splitOnce, hdata, splitOnceList_append a.data b.data ha]

theorem rsplitOnce_none_of_no_slash (s : String) (h : '/' ∉ s.data) :
    rsplitOnce s = none := by
  have : '/' ∉ s.data.reverse := by simpa using h
  simp [rsplitOnce, (splitOnceList_none_iff _).mpr this]

theorem rsplitOnce_append_no_slash (a b : String) (hb : '/' ∉ b.data) :
    rsplitOnce (a ++ "/" ++ b) = some (a, b) := by
  have hdata : (a ++ "/" ++ b).data.reverse = b.data.reverse ++ '/' :: a.data.reverse := by
    simp [data_append]
  have hbrev : '/' ∉ b.data.reverse := by simpa using hb
  simp [rsplitOnce, hdata, splitOnceList_append _ _ hbrev]

/-- Model of the anonymous-name retry loop inside `add_directory` (both
policies): starting candidate is passed in; while the candidate is a key,
recompute the candidate as `".||#:" ++ toString (len + i)` and bump `i`,
failing with `InvalidPath` once the incremented counter exceeds 100.
`len` is the child count `self.directory.len()` of the inserting parent. -/
def genLoop {α : Type} (l : List (String × α)) (len i : Nat) (gen : String) :
    Except PathioError String :=
  if containsKey l gen then
    let gen2 := ".||#:" ++ toString (len + i)
    if i + 1 > 100 then
      .error (.InvalidPath "Failed to generate name, max threshold reached!")
    else genLoop l len (i + 1) gen2
  else .ok gen
termination_by 100 - i

/-- Shallow embedding of `DirectoryMulti<T>` from tree.rs: cached name, path
and depth, a name-keyed file map and a name-keyed children map. -/
inductive DirectoryMulti (T : Type) : Type where
  | mk (name : String) (path : String) (depth : Nat)
      (file : List (String × T))
      (directory : List (String × DirectoryMulti T)) : DirectoryMulti T

namespace DirectoryMulti

variable {T : Type}

def name : DirectoryMulti T → String
  | .mk n _ _ _ _ => n

def path : DirectoryMulti T → String
  | .mk _ p _ _ _ => p

def depth : DirectoryMulti T → Nat
  | .mk _ _ d _ _ => d

def file : DirectoryMulti T → List (String × T)
  | .mk _ _ _ f _ => f

def directory : DirectoryMulti T → List (String × DirectoryMulti T)
  | .mk _ _ _ _ ds => ds

/-- Stamp the cached fields, as `add_directory` does on the inserted child:
`directory.name = name; directory.path = ..; directory.depth = ..`. -/
def stamp (d : DirectoryMulti T) (n p : String) (dep : Nat) : DirectoryMulti T :=
  match d with
  | .mk _ _ _ f ds => .mk n p dep f ds

/-- Replace the children map, modelling assignment to `self.directory`. -/
def setDirectory (d : DirectoryMulti T) (ds : List (String × DirectoryMulti T)) :
    DirectoryMulti T :=
  match d with
  | .mk n p dep f _ => .mk n p dep f ds

/-- Replace the file map, modelling assignment to `self.file`. -/
def setFile (d : DirectoryMulti T) (f : List (String × T)) : DirectoryMulti T :=
  match d with
  | .mk n p dep _ ds => .mk n p dep f ds

/-- Model of `DirectoryMulti::new()`. -/
def new : DirectoryMulti T := .mk "UNASSIGNED DIRECTORY" "EMPTY PATH" 0 [] []

/-- Model of the root directory built by `PathTreeMulti::new(name)`: a fresh
directory whose name is set and whose path is set to the empty string. -/
def newRoot (n : String) : DirectoryMulti T := .mk n "" 0 [] []

/-- Model of `DirectoryMulti::add_directory` (tree.rs lines 786-812). -/
def addDirectory (self : DirectoryMulti T) (n : String)
    (dir : DirectoryMulti T) : DirectoryMulti T × Except PathioError String :=
  if ¬ (n = "") then
    if n = "." then
      (self, .error (.NameInUse
        "The special symbol . is used to refer to self and is not available for use"))
    else if containsKey self.directory n = false then
      let stamped := dir.stamp n
        (if self.path = "" then n else self.path ++ "/" ++ n) (self.depth + 1)
      (self.setDirectory (insertKey self.directory n stamped), .ok n)
    else (self, .error (.NameInUse n))
  else
    match genLoop self.directory self.directory.length 0
        (".||#:" ++ toString self.directory.length) with
    | .error e => (self, .error e)
    | .ok g =>
      let stamped := dir.stamp g
        (if self.path = "" then g else self.path ++ "/" ++ g) (self.depth + 1)
      (self.setDirectory (insertKey self.directory g stamped), .ok g)

/-- Model of `obtain_directory_mut` followed by an arbitrary mutation `f` of
the borrowed directory: navigation failures leave the state unchanged and
return the error; on success `f` runs on the borrowed child (or on `self` for
the alias ".") and its state update is written back in place. -/
def obtainMutApply {α : Type} (f : DirectoryMulti T → DirectoryMulti T × Except PathioError α)
    (self : DirectoryMulti T) (n : String) :
    DirectoryMulti T × Except PathioError α :=
  if ¬ (n = "") then
    if n = "." then f self
    else
      match lookupKey self.directory n with
      | some sub =>
        let r := f sub
        (self.setDirectory (insertKey self.directory n r.1), r.2)
      | none => (self, .error (.NoDirectory n))
  else (self, .error (.InvalidPath n))

/-- Model of `borrow_directory_mut(path)` followed by applying `base` at the
final segment: recursive first-slash descent of tree.rs lines 879-887, with
the terminal single-segment case handled by `base`.  `remove_directory` and
`remove_file` share this recursion shape with a different terminal case, so
the terminal operation is a parameter. -/
def walkFirst {α : Type}
    (base : DirectoryMulti T → String → DirectoryMulti T × Except PathioError α)
    (self : DirectoryMulti T) (p : String) :
    DirectoryMulti T × Except PathioError α :=
  match hs : splitOnce p with
  | none => base self p
  | some (branch, rest) =>
    if ¬ (branch = "") then
      if branch = "." then walkFirst base self rest
      else
        match lookupKey self.directory branch with
        | some sub =>
          let r := walkFirst base sub rest
          (self.setDirectory (insertKey self.directory branch r.1), r.2)
        | none => (self, .error (.NoDirectory branch))
    else (self, .error (.InvalidPath branch))
termination_by p.data.length
decreasing_by
  all_goals exact splitOnce_some_length hs

/-- Model of `self.borrow_directory_mut(p)` followed by mutating the borrowed
directory with `f`. -/
def modifyAtPath {α : Type}
    (f : DirectoryMulti T → DirectoryMulti T × Except PathioError α)
    (self : DirectoryMulti T) (p : String) :
    DirectoryMulti T × Except PathioError α :=
  walkFirst (obtainMutApply f) self p

/-- Model of `DirectoryMulti::insert_directory` (tree.rs lines 814-822). -/
def insertDirectory (self : DirectoryMulti T) (p : String)
    (dir : DirectoryMulti T) : DirectoryMulti T × Except PathioError String :=
  match rsplitOnce p with
  | none => addDirectory self p dir
  | some (dirPath, n) => modifyAtPath (fun s => addDirectory s n dir) self dirPath

/-- Model of `DirectoryMulti::create_directory` (tree.rs lines 824-826). -/
def createDirectory (self : DirectoryMulti T) (p : String) :
    DirectoryMulti T × Except PathioError String :=
  insertDirectory self p new

/-- Model of `DirectoryMulti::take_directory` (tree.rs lines 828-833). -/
def takeDirectory (self : DirectoryMulti T) (n : String) :
    DirectoryMulti T × Except PathioError (DirectoryMulti T) :=
  match lookupKey self.directory n with
  | some dir => (self.setDirectory (removeKey self.directory n), .ok dir)
  | none => (self, .error (.NoDirectory n))

/-- Model of `DirectoryMulti::remove_directory` (tree.rs lines 835-843):
first-slash descent terminating in `take_directory`. -/
def removeDirectory (self : DirectoryMulti T) (p : String) :
    DirectoryMulti T × Except PathioError (DirectoryMulti T) :=
  walkFirst takeDirectory self p

/-- Model of `DirectoryMulti::obtain_directory` (tree.rs lines 845-855). -/
def obtainDirectory (self : DirectoryMulti T) (n : String) :
    Except PathioError (DirectoryMulti T) :=
  if ¬ (n = "") then
    if n = "." then .ok self
    else
      match lookupKey self.directory n with
      | some dir => .ok dir
      | none => .error (.NoDirectory n)
  else .error (.InvalidPath n)

/-- Model of `DirectoryMulti::borrow_directory` (tree.rs lines 869-877). -/
def borrowDirectory (self : DirectoryMulti T) (p : String) :
    Except PathioError (DirectoryMulti T) :=
  match hs : splitOnce p with
  | none => obtainDirectory self p
  | some (branch, rest) =>
    match obtainDirectory self branch with
    | .ok sub => borrowDirectory sub rest
    | .error e => .error e
termination_by p.data.length
decreasing_by
  all_goals exact splitOnce_some_length hs

/-- Model of `DirectoryMulti::add_file` of `PathioFileStorage` (tree.rs lines
951-958): reject an existing name, otherwise insert. -/
def addFile (self : DirectoryMulti T) (n : String) (v : T) :
    DirectoryMulti T × Except PathioError Unit :=
  if containsKey self.file n = false then
    (self.setFile (insertKey self.file n v), .ok ())
  else (self, .error (.NameInUse n))

/-- Model of `DirectoryMulti::insert_file` (tree.rs lines 960-968). -/
def insertFile (self : DirectoryMulti T) (p : String) (v : T) :
    DirectoryMulti T × Except PathioError Unit :=
  match rsplitOnce p with
  | none => addFile self p v
  | some (dirPath, n) => modifyAtPath (fun s => addFile s n v) self dirPath

/-- Model of `DirectoryMulti::take_file` (tree.rs lines 970-975). -/
def takeFile (self : DirectoryMulti T) (n : String) :
    DirectoryMulti T × Except PathioError T :=
  match lookupKey self.file n with
  | some v => (self.setFile (removeKey self.file n), .ok v)
  | none => (self, .error (.NoFile n))

/-- Model of `DirectoryMulti::remove_file` (tree.rs lines 977-985). -/
def removeFile (self : DirectoryMulti T) (p : String) :
    DirectoryMulti T × Except PathioError T :=
  walkFirst takeFile self p

/-- Apply phase of `merge` over the donor file entries: `insert_file` each
entry, stopping at the first failure (the Rust `?` operator), keeping the
mutations made so far. -/
def applyFiles (self : DirectoryMulti T) :
    List (String × T) → DirectoryMulti T × Except PathioError Unit
  | [] => (self, .ok ())
  | (n, v) :: rest =>
    match insertFile self n v with
    | (s, .ok _) => applyFiles s rest
    | (s, .error e) => (s, .error e)

/-- Apply phase of `merge` over the donor children: `insert_directory` each
entry, stopping at the first failure, keeping the mutations made so far. -/
def applyDirs (self : DirectoryMulti T) :
    List (String × DirectoryMulti T) → DirectoryMulti T × Except PathioError Unit
  | [] => (self, .ok ())
  | (n, dir) :: rest =>
    match insertDirectory self n dir with
    | (s, .ok _) => applyDirs s rest
    | (s, .error e) => (s, .error e)

/-- Model of `DirectoryMulti::merge` (tree.rs lines 889-908): scan donor file
names then donor child names for collisions with `self`, failing with
`DuplicateName` on the first hit without mutating; then move files across,
then children, via the insert operations. -/
def merge (self donor : DirectoryMulti T) :
    DirectoryMulti T × Except PathioError Unit :=
  match donor.file.find? (fun kv => containsKey self.file kv.1) with
  | some kv => (self, .error (.DuplicateName kv.1))
  | none =>
    match donor.directory.find? (fun kv => containsKey self.directory kv.1) with
    | some kv => (self, .error (.DuplicateName kv.1))
    | none =>
      match applyFiles self donor.file with
      | (s, .ok _) => applyDirs s donor.directory
      | (s, .error e) => (s, .error e)

end DirectoryMulti

/-- Shallow embedding of `DirectorySingle<T>` from tree.rs: cached name, path
and depth, at most one file, and a name-keyed children map. -/
inductive DirectorySingle (T : Type) : Type where
  | mk (name : String) (path : String) (depth : Nat)
      (file : Option T)
      (directory : List (String × DirectorySingle T)) : DirectorySingle T

namespace DirectorySingle

variable {T : Type}

def name : DirectorySingle T → String
  | .mk n _ _ _ _ => n

def path : DirectorySingle T → String
  | .mk _ p _ _ _ => p

def depth : DirectorySingle T → Nat
  | .mk _ _ d _ _ => d

def file : DirectorySingle T → Option T
  | .mk _ _ _ f _ => f

def directory : DirectorySingle T → List (String × DirectorySingle T)
  | .mk _ _ _ _ ds => ds

/-- Stamp the cached fields, as `add_directory` does on the inserted child. -/
def stamp (d : DirectorySingle T) (n p : String) (dep : Nat) : DirectorySingle T :=
  match d with
  | .mk _ _ _ f ds => .mk n p dep f ds

/-- Replace the children map, modelling assignment to `self.directory`. -/
def setDirectory (d : DirectorySingle T) (ds : List (String × DirectorySingle T)) :
    DirectorySingle T :=
  match d with
  | .mk n p dep f _ => .mk n p dep f ds

/-- Replace the file slot, modelling assignment to `self.file`. -/
def setFile (d : DirectorySingle T) (f : Option T) : DirectorySingle T :=
  match d with
  | .mk n p dep _ ds => .mk n p dep f ds

/-- Model of `DirectorySingle::new()`. -/
def new : DirectorySingle T := .mk "UNASSIGNED DIRECTORY" "EMPTY PATH" 0 none []

/-- Model of `DirectorySingle::add_directory` (tree.rs lines 492-518). -/
def addDirectory (self : DirectorySingle T) (n : String)
    (dir : DirectorySingle T) : DirectorySingle T × Except PathioError String :=
  if ¬ (n = "") then
    if n = "." then
      (self, .error (.NameInUse
        "The special symbol . is used to refer to self and is not available for use"))
    else if containsKey self.directory n = false then
      let stamped := dir.stamp n
        (if self.path = "" then n else self.path ++ "/" ++ n) (self.depth + 1)
      (self.setDirectory (insertKey self.directory n stamped), .ok n)
    else (self, .error (.NameInUse n))
  else
    match genLoop self.directory self.directory.length 0
        (".||#:" ++ toString self.directory.length) with
    | .error e => (self, .error e)
    | .ok g =>
      let stamped := dir.stamp g
        (if self.path = "" then g else self.path ++ "/" ++ g) (self.depth + 1)
      (self.setDirectory (insertKey self.directory g stamped), .ok g)

/-- Single-policy analogue of `DirectoryMulti.obtainMutApply`. -/
def obtainMutApply {α : Type}
    (f : DirectorySingle T → DirectorySingle T × Except PathioError α)
    (self : DirectorySingle T) (n : String) :
    DirectorySingle T × Except PathioError α :=
  if ¬ (n = "") then
    if n = "." then f self
    else
      match lookupKey self.directory n with
      | some sub =>
        let r := f sub
        (self.setDirectory (insertKey self.directory n r.1), r.2)
      | none => (self, .error (.NoDirectory n))
  else (self, .error (.InvalidPath n))

/-- Single-policy analogue of `DirectoryMulti.walkFirst` (tree.rs lines
585-593 for the descent). -/
def walkFirst {α : Type}
    (base : DirectorySingle T → String → DirectorySingle T × Except PathioError α)
    (self : DirectorySingle T) (p : String) :
    DirectorySingle T × Except PathioError α :=
  match hs : splitOnce p with
  | none => base self p
  | some (branch, rest) =>
    if ¬ (branch = "") then
      if branch = "." then walkFirst base self rest
      else
        match lookupKey self.directory branch with
        | some sub =>
          let r := walkFirst base sub rest
          (self.setDirectory (insertKey self.directory branch r.1), r.2)
        | none => (self, .error (.NoDirectory branch))
    else (self, .error (.InvalidPath branch))
termination_by p.data.length
decreasing_by
  all_goals exact splitOnce_some_length hs

/-- Model of `self.borrow_directory_mut(p)` followed by mutating the borrowed
directory with `f` (Single policy). -/
def modifyAtPath {α : Type}
    (f : DirectorySingle T → DirectorySingle T × Except PathioError α)
    (self : DirectorySingle T) (p : String) :
    DirectorySingle T × Except PathioError α :=
  walkFirst (obtainMutApply f) self p

/-- Model of `DirectorySingle::insert_directory` (tree.rs lines 520-528). -/
def insertDirectory (self : DirectorySingle T) (p : String)
    (dir : DirectorySingle T) : DirectorySingle T × Except PathioError String :=
  match rsplitOnce p with
  | none => addDirectory self p dir
  | some (dirPath, n) => modifyAtPath (fun s => addDirectory s n dir) self dirPath

/-- Model of `DirectorySingle::add_file` of `PathioFile` (tree.rs lines
654-656): `mem::replace` the slot, returning the previous value. -/
def addFile (self : DirectorySingle T) (v : T) :
    DirectorySingle T × Option T :=
  (self.setFile (some v), self.file)

/-- Apply phase of the Single-policy `merge` over the donor children. -/
def applyDirs (self : DirectorySingle T) :
    List (String × DirectorySingle T) → DirectorySingle T × Except PathioError Unit
  | [] => (self, .ok ())
  | (n, dir) :: rest =>
    match insertDirectory self n dir with
    | (s, .ok _) => applyDirs s rest
    | (s, .error e) => (s, .error e)

/-- Model of `DirectorySingle::merge` (tree.rs lines 595-611): reject a donor
that carries a file with `FileConflict`, scan donor child names for collisions
with `self` failing with `DuplicateName`, then move the children across via
`insert_directory`. -/
def merge (self donor : DirectorySingle T) :
    DirectorySingle T × Except PathioError Unit :=
  if donor.file.isSome then (self, .error .FileConflict)
  else
    match donor.directory.find? (fun kv => containsKey self.directory kv.1) with
    | some kv => (self, .error (.DuplicateName kv.1))
    | none => applyDirs self donor.directory

end DirectorySingle

@[simp] theorem dirMulti_name_mk {T : Type} (n p : String) (dep : Nat)
    (f : List (String × T)) (ds : List (String × DirectoryMulti T)) :
    (DirectoryMulti.mk n p dep f ds).name = n := rfl

@[simp] theorem dirMulti_path_mk {T : Type} (n p : String) (dep : Nat)
    (f : List (String × T)) (ds : List (String × DirectoryMulti T)) :
    (DirectoryMulti.mk n p dep f ds).path = p := rfl

@[simp] theorem dirMulti_depth_mk {T : Type} (n p : String) (dep : Nat)
    (f : List (String × T)) (ds : List (String × DirectoryMulti T)) :
    (DirectoryMulti.mk n p dep f ds).depth = dep := rfl

@[simp] theorem dirMulti_file_mk {T : Type} (n p : String) (dep : Nat)
    (f : List (String × T)) (ds : List (String × DirectoryMulti T)) :
    (DirectoryMulti.mk n p dep f ds).file = f := rfl

@[simp] theorem dirMulti_directory_mk {T : Type} (n p : String) (dep : Nat)
    (f : List (String × T)) (ds : List (String × DirectoryMulti T)) :
    (DirectoryMulti.mk n p dep f ds).directory = ds := rfl

@[simp] theorem dirMulti_stamp_mk {T : Type} (n0 p0 n p : String) (dep0 dep : Nat)
    (f : List (String × T)) (ds : List (String × DirectoryMulti T)) :
    (DirectoryMulti.mk n0 p0 dep0 f ds).stamp n p dep = .mk n p dep f ds := rfl

@[simp] theorem dirMulti_setDirectory_mk {T : Type} (n p : String) (dep : Nat)
    (f : List (String × T)) (ds ds2 : List (String × DirectoryMulti T)) :
    (DirectoryMulti.mk n p dep f ds).setDirectory ds2 = .mk n p dep f ds2 := rfl

@[simp] theorem dirMulti_setFile_mk {T : Type} (n p : String) (dep : Nat)
    (f f2 : List (String × T)) (ds : List (String × DirectoryMulti T)) :
    (DirectoryMulti.mk n p dep f ds).setFile f2 = .mk n p dep f2 ds := rfl

@[simp] theorem dirMulti_setDirectory_name {T : Type} (d : DirectoryMulti T)
    (ds : List (String × DirectoryMulti T)) :
    (d.setDirectory ds).name = d.name := by cases d <;> rfl

@[simp] theorem dirMulti_setDirectory_path {T : Type} (d : DirectoryMulti T)
    (ds : List (String × DirectoryMulti T)) :
    (d.setDirectory ds).path = d.path := by cases d <;> rfl

@[simp] theorem dirMulti_setDirectory_depth {T : Type} (d : DirectoryMulti T)
    (ds : List (String × DirectoryMulti T)) :
    (d.setDirectory ds).depth = d.depth := by cases d <;> rfl

@[simp] theorem dirMulti_setDirectory_file {T : Type} (d : DirectoryMulti T)
    (ds : List (String × DirectoryMulti T)) :
    (d.setDirectory ds).file = d.file := by cases d <;> rfl

@[simp] theorem dirMulti_setDirectory_directory {T : Type} (d : DirectoryMulti T)
    (ds : List (String × DirectoryMulti T)) :
    (d.setDirectory ds).directory = ds := by cases d <;> rfl

@[simp] theorem dirMulti_setFile_file {T : Type} (d : DirectoryMulti T)
    (f : List (String × T)) : (d.setFile f).file = f := by cases d <;> rfl

@[simp] theorem dirMulti_setFile_directory {T : Type} (d : DirectoryMulti T)
    (f : List (String × T)) : (d.setFile f).directory = d.directory := by
  cases d <;> rfl

@[simp] theorem dirMulti_stamp_name {T : Type} (d : DirectoryMulti T)
    (n p : String) (dep : Nat) : (d.stamp n p dep).name = n := by cases d <;> rfl

@[simp] theorem dirMulti_stamp_path {T : Type} (d : DirectoryMulti T)
    (n p : String) (dep : Nat) : (d.stamp n p dep).path = p := by cases d <;> rfl

@[simp] theorem dirMulti_stamp_depth {T : Type} (d : DirectoryMulti T)
    (n p : String) (dep : Nat) : (d.stamp n p dep).depth = dep := by
  cases d <;> rfl

@[simp] theorem dirMulti_stamp_directory {T : Type} (d : DirectoryMulti T)
    (n p : String) (dep : Nat) : (d.stamp n p dep).directory = d.directory := by
  cases d <;> rfl

@[simp] theorem dirMulti_stamp_file {T : Type} (d : DirectoryMulti T)
    (n p : String) (dep : Nat) : (d.stamp n p dep).file = d.file := by
  cases d <;> rfl

@[simp] theorem dirSingle_setDirectory_name {T : Type} (d : DirectorySingle T)
    (ds : List (String × DirectorySingle T)) :
    (d.setDirectory ds).name = d.name := by cases d <;> rfl

@[simp] theorem dirSingle_setDirectory_directory {T : Type} (d : DirectorySingle T)
    (ds : List (String × DirectorySingle T)) :
    (d.setDirectory ds).directory = ds := by cases d <;> rfl

@[simp] theorem dirSingle_setFile_file {T : Type} (d : DirectorySingle T)
    (f : Option T) : (d.setFile f).file = f := by cases d <;> rfl

@[simp] theorem dirSingle_setFile_directory {T : Type} (d : DirectorySingle T)
    (f : Option T) : (d.setFile f).directory = d.directory := by cases d <;> rfl

theorem containsKey_iff_exists {α : Type} (l : List (String × α)) (k : String) :
    containsKey l k = true ↔ ∃ kv ∈ l, kv.1 = k := by
  simp [containsKey]

theorem containsKey_eq_false_iff {α : Type} (l : List (String × α)) (k : String) :
    containsKey l k = false ↔ ∀ kv ∈ l, kv.1 ≠ k := by
  simp [containsKey]

@[simp] theorem containsKey_nil {α : Type} (k : String) :
    containsKey ([] : List (String × α)) k = false := rfl

@[simp] theorem containsKey_cons {α : Type} (kv : String × α)
    (l : List (String × α)) (k : String) :
    containsKey (kv :: l) k = (decide (kv.1 = k) || containsKey l k) := rfl

theorem lookupKey_none_of_not_contains {α : Type} {l : List (String × α)}
    {k : String} (h : containsKey l k = false) : lookupKey l k = none := by
  induction l with
  | nil => rfl
  | cons kv rest ih =>
    simp only [containsKey_cons, Bool.or_eq_false_iff, decide_eq_false_iff_not] at h
    simp [lookupKey, h.1, ih h.2]

theorem lookupKey_isSome_of_contains {α : Type} {l : List (String × α)}
    {k : String} (h : containsKey l k = true) : (lookupKey l k).isSome := by
  induction l with
  | nil => simp at h
  | cons kv rest ih =>
    by_cases hk : kv.1 = k
    · simp [lookupKey, hk]
    · simp only [containsKey_cons, Bool.or_eq_true, decide_eq_true_eq] at h
      rcases h with h | h
      · exact absurd h hk
      · simp [lookupKey, hk, ih h]

theorem lookupKey_append_self {α : Type} {l : List (String × α)} {k : String}
    (h : containsKey l k = false) (v : α) :
    lookupKey (l ++ [(k, v)]) k = some v := by
  induction l with
  | nil => simp [lookupKey]
  | cons kv rest ih =>
    simp only [containsKey_cons, Bool.or_eq_false_iff, decide_eq_false_iff_not] at h
    simp [lookupKey, h.1, ih h.2]

theorem lookupKey_append_other {α : Type} (l : List (String × α))
    {k k2 : String} (h : k2 ≠ k) (v : α) :
    lookupKey (l ++ [(k, v)]) k2 = lookupKey l k2 := by
  induction l with
  | nil => simp [lookupKey, Ne.symm h]
  | cons kv rest ih =>
    by_cases hk : kv.1 = k2
    · simp [lookupKey, hk]
    · simp [lookupKey, hk, ih]

theorem insertKey_not_contains {α : Type} {l : List (String × α)} {k : String}
    (h : containsKey l k = false) (v : α) : insertKey l k v = l ++ [(k, v)] := by
  simp [insertKey, h]

theorem lookupKey_mem {α : Type} {l : List (String × α)} {k : String} {v : α}
    (h : lookupKey l k = some v) : (k, v) ∈ l := by
  induction l with
  | nil => simp [lookupKey] at h
  | cons kv rest ih =>
    by_cases hk : kv.1 = k
    · simp only [lookupKey, if_pos hk] at h
      cases h
      cases kv
      simp only at hk
      subst hk
      exact List.mem_cons_self _ _
    · simp only [lookupKey, if_neg hk] at h
      exact List.mem_cons_of_mem _ (ih h)

theorem containsKey_append_self {α : Type} (l : List (String × α)) (k : String)
    (v : α) : containsKey (l ++ [(k, v)]) k = true := by
  simp [containsKey]

theorem genLoop_free {α : Type} {l : List (String × α)} {gen : String}
    (len i : Nat) (h : containsKey l gen = false) :
    genLoop l len i gen = .ok gen := by
  rw [genLoop]
  simp [h]

theorem genLoop_step {α : Type} {l : List (String × α)} {gen : String}
    {i : Nat} (len : Nat) (h : containsKey l gen = true) (hi : i + 1 ≤ 100) :
    genLoop l len i gen = genLoop l len (i + 1) (".||#:" ++ toString (len + i)) := by
  rw [genLoop]
  simp [h, Nat.not_lt.mpr hi]

theorem genLoop_exhausted {α : Type} {l : List (String × α)} {gen : String}
    {i : Nat} (len : Nat) (h : containsKey l gen = true) (hi : 100 < i + 1) :
    genLoop l len i gen =
      .error (.InvalidPath "Failed to generate name, max threshold reached!") := by
  rw [genLoop]
  simp [h, hi]

theorem borrowDirectory_last {T : Type} (d : DirectoryMulti T) {p : String}
    (h : splitOnce p = none) :
    d.borrowDirectory p = d.obtainDirectory p := by
  rw [DirectoryMulti.borrowDirectory]
  split
  · rfl
  · rename_i heq; rw [h] at heq; cases heq

theorem borrowDirectory_descend {T : Type} (d : DirectoryMulti T)
    {p branch rest : String} (h : splitOnce p = some (branch, rest)) :
    d.borrowDirectory p =
      match d.obtainDirectory branch with
      | .ok sub => sub.borrowDirectory rest
      | .error e => .error e := by
  rw [DirectoryMulti.borrowDirectory]
  split
  · rename_i heq; rw [h] at heq; cases heq
  · rename_i b r heq
    rw [h] at heq
    cases heq
    rfl

theorem walkFirst_last {T α : Type}
    (base : DirectoryMulti T → String → DirectoryMulti T × Except PathioError α)
    (d : DirectoryMulti T) {p : String} (h : splitOnce p = none) :
    DirectoryMulti.walkFirst base d p = base d p := by
  rw [DirectoryMulti.walkFirst]
  split
  · rfl
  · rename_i heq; rw [h] at heq; cases heq

theorem walkFirst_descend {T α : Type}
    (base : DirectoryMulti T → String → DirectoryMulti T × Except PathioError α)
    (d : DirectoryMulti T) {p branch rest : String}
    (h : splitOnce p = some (branch, rest)) :
    DirectoryMulti.walkFirst base d p =
      if ¬ (branch = "") then
        if branch = "." then DirectoryMulti.walkFirst base d rest
        else
          match lookupKey d.directory branch with
          | some sub =>
            let r := DirectoryMulti.walkFirst base sub rest
            (d.setDirectory (insertKey d.directory branch r.1), r.2)
          | none => (d, .error (.NoDirectory branch))
      else (d, .error (.InvalidPath branch)) := by
  rw [DirectoryMulti.walkFirst]
  split
  · rename_i heq; rw [h] at heq; cases heq
  · rename_i b r heq
    rw [h] at heq
    cases heq
    rfl

theorem walkFirstS_last {T α : Type}
    (base : DirectorySingle T → String → DirectorySingle T × Except PathioError α)
    (d : DirectorySingle T) {p : String} (h : splitOnce p = none) :
    DirectorySingle.walkFirst base d p = base d p := by
  rw [DirectorySingle.walkFirst]
  split
  · rfl
  · rename_i heq; rw [h] at heq; cases heq

theorem walkFirstS_descend {T α : Type}
    (base : DirectorySingle T → String → DirectorySingle T × Except PathioError α)
    (d : DirectorySingle T) {p branch rest : String}
    (h : splitOnce p = some (branch, rest)) :
    DirectorySingle.walkFirst base d p =
      if ¬ (branch = "") then
        if branch = "." then DirectorySingle.walkFirst base d rest
        else
          match lookupKey d.directory branch with
          | some sub =>
            let r := DirectorySingle.walkFirst base sub rest
            (d.setDirectory (insertKey d.directory branch r.1), r.2)
          | none => (d, .error (.NoDirectory branch))
      else (d, .error (.InvalidPath branch)) := by
  rw [DirectorySingle.walkFirst]
  split
  · rename_i heq; rw [h] at heq; cases heq
  · rename_i b r heq
    rw [h] at heq
    cases heq
    rfl

/-- Discriminator: the outcome is an `InvalidPath` error. -/
def isInvalidPathErr {α : Type} : Except PathioError α → Bool
  | .error (.InvalidPath _) => true
  | _ => false

/-- Discriminator: the outcome is a `NameInUse` error. -/
def isNameInUseErr {α : Type} : Except PathioError α → Bool
  | .error (.NameInUse _) => true
  | _ => false

theorem addDirectory_dot_eq {T : Type} (d c : DirectoryMulti T) :
    d.addDirectory "." c =
      (d, .error (.NameInUse
        "The special symbol . is used to refer to self and is not available for use")) := by
  rw [DirectoryMulti.addDirectory]
  simp

theorem addDirectoryS_dot_eq {T : Type} (d c : DirectorySingle T) :
    d.addDirectory "." c =
      (d, .error (.NameInUse
        "The special symbol . is used to refer to self and is not available for use")) := by
  rw [DirectorySingle.addDirectory]
  simp

/-- C2 counterexample: calling `add_directory` with the name "." on a fresh
directory of either policy fails, but the returned error is `NameInUse`, not
`InvalidPath` as the claim states. -/
theorem addDirectory_dot_error_kind :
    isInvalidPathErr
      ((DirectoryMulti.newRoot "root" : DirectoryMulti Nat).addDirectory "."
        DirectoryMulti.new).2 = false ∧
    isNameInUseErr
      ((DirectoryMulti.newRoot "root" : DirectoryMulti Nat).addDirectory "."
        DirectoryMulti.new).2 = true ∧
    isInvalidPathErr
      ((DirectorySingle.new : DirectorySingle Nat).addDirectory "."
        DirectorySingle.new).2 = false ∧
    isNameInUseErr
      ((DirectorySingle.new : DirectorySingle Nat).addDirectory "."
        DirectorySingle.new).2 = true := by
  refine ⟨rfl, rfl, rfl, rfl⟩

/-- C2 (amended): for both policies, `add_directory` with the name "." on any
directory fails without modifying the directory, and the error returned is
`NameInUse` (carrying the reserved-symbol message), not `InvalidPath`. -/
theorem addDirectory_dot_rejected {T : Type} (dM cM : DirectoryMulti T)
    (dS cS : DirectorySingle T) :
    dM.addDirectory "." cM =
      (dM, .error (.NameInUse
        "The special symbol . is used to refer to self and is not available for use")) ∧
    dS.addDirectory "." cS =
      (dS, .error (.NameInUse
        "The special symbol . is used to refer to self and is not available for use")) :=
  ⟨addDirectory_dot_eq dM cM, addDirectoryS_dot_eq dS cS⟩

/-- C9: Single-policy `add_file` overwrites, returning the previous value;
Multi-policy `add_file` on a taken name fails with `NameInUse` keeping the
first value. -/
theorem addFile_policy_asymmetry {T : Type} (dS : DirectorySingle T)
    (v1 v2 : T) (dM : DirectoryMulti T) (n : String) (w1 w2 : T)
    (hfree : containsKey dM.file n = false) :
    ((dS.addFile v1).1.addFile v2).2 = some v1 ∧
    ((dS.addFile v1).1.addFile v2).1.file = some v2 ∧
    (dM.addFile n w1).2 = .ok () ∧
    ((dM.addFile n w1).1.addFile n w2).2 = .error (.NameInUse n) ∧
    lookupKey ((dM.addFile n w1).1.addFile n w2).1.file n = some w1 := by
  have h1 : (dM.addFile n w1) = (dM.setFile (insertKey dM.file n w1), .ok ()) := by
    rw [DirectoryMulti.addFile]
    simp [hfree]
  have hins : insertKey dM.file n w1 = dM.file ++ [(n, w1)] :=
    insertKey_not_contains hfree w1
  have hcont2 : containsKey (insertKey dM.file n w1) n = true := by
    rw [hins]
    exact containsKey_append_self _ _ _
  have h2 : ((dM.setFile (insertKey dM.file n w1)).addFile n w2) =
      (dM.setFile (insertKey dM.file n w1), .error (.NameInUse n)) := by
    rw [DirectoryMulti.addFile]
    simp [hcont2]
  refine ⟨by simp [DirectorySingle.addFile], by simp [DirectorySingle.addFile], ?_, ?_, ?_⟩
  · rw [h1]
  · rw [h1, h2]
  · rw [h1, h2]
    rw [dirMulti_setFile_file, hins]
    exact lookupKey_append_self hfree w1

/-- C9 witness: concrete instantiation of `addFile_policy_asymmetry` with a
fresh Multi directory and the name "x". -/
theorem addFile_policy_asymmetry_witness :
    containsKey (DirectoryMulti.newRoot "r" : DirectoryMulti Nat).file "x" = false ∧
    (((DirectorySingle.new : DirectorySingle Nat).addFile 1).1.addFile 2).2 = some 1 ∧
    (((DirectoryMulti.newRoot "r" : DirectoryMulti Nat).addFile "x" 1).1.addFile "x" 2).2 =
      .error (.NameInUse "x") := by
  have h := addFile_policy_asymmetry (DirectorySingle.new : DirectorySingle Nat)
    1 2 (DirectoryMulti.newRoot "r" : DirectoryMulti Nat) "x" 1 2 (by rfl)
  exact ⟨rfl, h.1, h.2.2.2.1⟩

theorem append_slash_dot (s : String) : s ++ "/." = s ++ "/" ++ "." := by
  apply String.ext
  simp [data_append]

/-- C8: the "." segment resolves to the current node without consulting the
children map, so for any slash-free segment `s`, `borrow_directory` of
`s ++ "/."` returns exactly what `borrow_directory` of `s` returns. -/
theorem borrowDirectory_dot_alias {T : Type} (d : DirectoryMulti T) (s : String)
    (h : '/' ∉ s.data) :
    d.borrowDirectory (s ++ "/.") = d.borrowDirectory s := by
  rw [append_slash_dot]
  rw [borrowDirectory_descend d (splitOnce_append_no_slash s "." h)]
  rw [borrowDirectory_last d (splitOnce_none_of_no_slash s h)]
  cases hob : d.obtainDirectory s with
  | ok sub =>
    simp only
    rw [borrowDirectory_last sub (p := ".") (by rfl)]
    rw [DirectoryMulti.obtainDirectory]
    simp
  | error e => simp

/-- C8 witness: on a directory with one child "sub", borrowing "sub" and
borrowing "sub/." give the same (successful) outcome. -/
theorem borrowDirectory_dot_alias_witness :
    ('/' ∉ ("sub" : String).data) ∧
    (DirectoryMulti.mk "r" "" 0 [] [("sub", DirectoryMulti.mk "sub" "sub" 1 [] [])]
        : DirectoryMulti Nat).borrowDirectory "sub/." =
      (DirectoryMulti.mk "r" "" 0 [] [("sub", DirectoryMulti.mk "sub" "sub" 1 [] [])]
        : DirectoryMulti Nat).borrowDirectory "sub" := by
  refine ⟨by decide, ?_⟩
  exact borrowDirectory_dot_alias _ "sub" (by decide)

/-- C4 counterexample: on the root directory (whose cached path is the empty
string) creating and borrowing "n" yields a node whose path is "n", not
`D.path ++ "/" ++ "n"` = "/n" as the claim requires for every directory. -/
theorem create_borrow_root_path :
    ((DirectoryMulti.newRoot "root" : DirectoryMulti Nat).createDirectory
        "n").1.borrowDirectory "n" =
      .ok (DirectoryMulti.mk "n" "n" 1 [] []) ∧
    ("n" : String) ≠ (DirectoryMulti.newRoot "root" : DirectoryMulti Nat).path
      ++ "/" ++ "n" := by
  constructor
  · have hnone : splitOnce "n" = none := by decide
    have hr : ((DirectoryMulti.newRoot "root" : DirectoryMulti Nat).createDirectory
        "n").1 = DirectoryMulti.mk "root" "" 0 []
          [("n", DirectoryMulti.mk "n" "n" 1 [] [])] := by
      rfl
    rw [hr, borrowDirectory_last _ hnone]
    rfl
  · decide

/-- C4 (amended): for every directory D and every nonempty, slash-free name N
other than "." that is not already a child key, `create_directory(N)` then
`borrow_directory(N)` succeeds and returns a node whose name is N, whose depth
is `D.depth + 1`, and whose path is `D.path ++ "/" ++ N` when `D.path` is
nonempty and plain `N` when D is a root (empty cached path). -/
theorem create_then_borrow {T : Type} (d : DirectoryMulti T) (n : String)
    (hslash : '/' ∉ n.data) (hne : n ≠ "") (hdot : n ≠ ".")
    (hfree : containsKey d.directory n = false) :
    (d.createDirectory n).2 = .ok n ∧
    (d.createDirectory n).1.borrowDirectory n =
      .ok (DirectoryMulti.mk n
        (if d.path = "" then n else d.path ++ "/" ++ n) (d.depth + 1) [] []) := by
  have hadd : d.createDirectory n =
      (d.setDirectory (d.directory ++ [(n, DirectoryMulti.mk n
        (if d.path = "" then n else d.path ++ "/" ++ n) (d.depth + 1) [] [])]),
        .ok n) := by
    rw [DirectoryMulti.createDirectory, DirectoryMulti.insertDirectory,
      rsplitOnce_none_of_no_slash n hslash]
    rw [DirectoryMulti.addDirectory]
    simp [hne, hdot, hfree, insertKey_not_contains hfree, DirectoryMulti.new,
      DirectoryMulti.stamp]
  refine ⟨by rw [hadd], ?_⟩
  rw [hadd]
  rw [borrowDirectory_last _ (splitOnce_none_of_no_slash n hslash)]
  rw [DirectoryMulti.obtainDirectory]
  simp only [dirMulti_setDirectory_directory, hne, hdot, if_neg, if_false,
    not_false_eq_true, if_true]
  rw [lookupKey_append_self hfree]

/-- C4 witness: concrete instantiation of `create_then_borrow` on a directory
with a nonempty path. -/
theorem create_then_borrow_witness :
    ('/' ∉ ("n" : String).data) ∧
    ((DirectoryMulti.mk "a" "a" 1 [] [] : DirectoryMulti Nat).createDirectory
        "n").1.borrowDirectory "n" =
      .ok (DirectoryMulti.mk "n" ("a" ++ "/" ++ "n") 2 [] []) := by
  refine ⟨by decide, ?_⟩
  have h := create_then_borrow (DirectoryMulti.mk "a" "a" 1 [] [] :
    DirectoryMulti Nat) "n" (by decide) (by decide) (by decide) (by rfl)
  simpa using h.2

theorem addDirectory_empty_eq {T : Type} (d c : DirectoryMulti T) :
    d.addDirectory "" c =
      match genLoop d.directory d.directory.length 0
          (".||#:" ++ toString d.directory.length) with
      | .error e => (d, .error e)
      | .ok g =>
        (d.setDirectory (insertKey d.directory g
          (c.stamp g (if d.path = "" then g else d.path ++ "/" ++ g)
            (d.depth + 1))), .ok g) := by
  rw [DirectoryMulti.addDirectory]
  simp

/-- C6 counterexample: with the empty name, a second `create_directory` call
does not fail with `NameInUse`; anonymous-name generation makes it succeed
again (with a fresh generated name), and the child count grows to 2. -/
theorem create_twice_empty_name_succeeds :
    ((DirectoryMulti.newRoot "r" : DirectoryMulti Nat).createDirectory "").2 =
      .ok ".||#:0" ∧
    (((DirectoryMulti.newRoot "r" : DirectoryMulti Nat).createDirectory
        "").1.createDirectory "").2 = .ok ".||#:1" ∧
    (((DirectoryMulti.newRoot "r" : DirectoryMulti Nat).createDirectory
        "").1.createDirectory "").1.directory.length = 2 := by
  have key1 : (DirectoryMulti.newRoot "r" : DirectoryMulti Nat).createDirectory "" =
      (DirectoryMulti.mk "r" "" 0 []
        [(".||#:0", DirectoryMulti.mk ".||#:0" ".||#:0" 1 [] [])], .ok ".||#:0") := by
    simp only [DirectoryMulti.createDirectory, DirectoryMulti.insertDirectory,
      show rsplitOnce "" = none from rfl]
    rw [addDirectory_empty_eq, genLoop_free _ _ (by rfl)]
    rfl
  have key2 : (DirectoryMulti.mk "r" "" 0 []
      [(".||#:0", DirectoryMulti.mk ".||#:0" ".||#:0" 1 [] [])] :
        DirectoryMulti Nat).createDirectory "" =
      (DirectoryMulti.mk "r" "" 0 []
        [(".||#:0", DirectoryMulti.mk ".||#:0" ".||#:0" 1 [] []),
         (".||#:1", DirectoryMulti.mk ".||#:1" ".||#:1" 1 [] [])], .ok ".||#:1") := by
    simp only [DirectoryMulti.createDirectory, DirectoryMulti.insertDirectory,
      show rsplitOnce "" = none from rfl]
    rw [addDirectory_empty_eq, genLoop_free _ _ (by rfl)]
    rfl
  rw [key1]
  refine ⟨rfl, ?_, ?_⟩
  · rw [key2]
  · rw [key2]
    rfl

/-- C6 (amended): for every nonempty name N, a second `add_directory` with the
identical name fails with `NameInUse` and leaves the state of the first call
untouched; the same holds for `create_directory` when N is additionally
slash-free (a slash would make `create_directory` resolve ancestors instead
of re-adding at this level).  (For N = "." both calls fail with `NameInUse`;
for N = "" the claim is false, see the counterexample.) -/
theorem addDirectory_twice_fails {T : Type} (d : DirectoryMulti T)
    (n : String) (c1 c2 : DirectoryMulti T) (hne : n ≠ "") :
    (isNameInUseErr ((d.addDirectory n c1).1.addDirectory n c2).2 = true ∧
      ((d.addDirectory n c1).1.addDirectory n c2).1 = (d.addDirectory n c1).1) ∧
    ('/' ∉ n.data →
      isNameInUseErr ((d.createDirectory n).1.createDirectory n).2 = true ∧
      ((d.createDirectory n).1.createDirectory n).1 = (d.createDirectory n).1) := by
  have main : ∀ (c1 c2 : DirectoryMulti T),
      isNameInUseErr ((d.addDirectory n c1).1.addDirectory n c2).2 = true ∧
      ((d.addDirectory n c1).1.addDirectory n c2).1 = (d.addDirectory n c1).1 := by
    intro c1 c2
    by_cases hdot : n = "."
    · subst hdot
      rw [addDirectory_dot_eq d c1]
      rw [addDirectory_dot_eq d c2]
      exact ⟨rfl, rfl⟩
    · by_cases hcont : containsKey d.directory n = true
      · have h1 : d.addDirectory n c1 = (d, .error (.NameInUse n)) := by
          rw [DirectoryMulti.addDirectory]
          simp [hne, hdot, hcont]
        have h2 : d.addDirectory n c2 = (d, .error (.NameInUse n)) := by
          rw [DirectoryMulti.addDirectory]
          simp [hne, hdot, hcont]
        rw [h1]
        simp only
        rw [h2]
        exact ⟨rfl, rfl⟩
      · have hfree : containsKey d.directory n = false := by
          simpa using hcont
        have h1 : d.addDirectory n c1 =
            (d.setDirectory (d.directory ++ [(n, c1.stamp n
              (if d.path = "" then n else d.path ++ "/" ++ n) (d.depth + 1))]),
              .ok n) := by
          rw [DirectoryMulti.addDirectory]
          simp [hne, hdot, hfree, insertKey_not_contains hfree]
        have hcont2 : containsKey (d.directory ++ [(n, c1.stamp n
            (if d.path = "" then n else d.path ++ "/" ++ n) (d.depth + 1))]) n
              = true := containsKey_append_self _ _ _
        have h2 : ∀ dd : DirectoryMulti T, dd.directory = d.directory ++
            [(n, c1.stamp n (if d.path = "" then n
              else d.path ++ "/" ++ n) (d.depth + 1))] →
            dd.addDirectory n c2 = (dd, .error (.NameInUse n)) := by
          intro dd hdd
          rw [DirectoryMulti.addDirectory, hdd]
          simp [hne, hdot, hcont2]
        rw [h1]
        simp only
        rw [h2 _ (by simp)]
        exact ⟨rfl, rfl⟩
  refine ⟨main c1 c2, ?_⟩
  intro hslash
  have hcreate : ∀ (dd : DirectoryMulti T),
      dd.createDirectory n = dd.addDirectory n DirectoryMulti.new := by
    intro dd
    rw [DirectoryMulti.createDirectory, DirectoryMulti.insertDirectory,
      rsplitOnce_none_of_no_slash n hslash]
  simp only [hcreate]
  exact main DirectoryMulti.new DirectoryMulti.new

/-- C6 witness: concrete instantiation of `addDirectory_twice_fails` with the
name "a" on a fresh root. -/
theorem addDirectory_twice_fails_witness :
    ("a" : String) ≠ "" ∧
    isNameInUseErr (((DirectoryMulti.newRoot "r" : DirectoryMulti Nat).createDirectory
      "a").1.createDirectory "a").2 = true := by
  refine ⟨by decide, ?_⟩
  exact ((addDirectory_twice_fails (DirectoryMulti.newRoot "r" : DirectoryMulti Nat)
    "a" DirectoryMulti.new DirectoryMulti.new (by decide)).2 (by decide)).1

theorem slash_append_ne_empty (a b : String) : a ++ "/" ++ b ≠ "" := by
  intro h
  have := congrArg (fun s => s.data.length) h
  simp [data_append] at this

theorem slash_append_ne_dot (a b : String) : a ++ "/" ++ b ≠ "." := by
  intro h
  have hmem : '/' ∈ (a ++ "/" ++ b).data := by simp [data_append]
  rw [h] at hmem
  have : '/' ∈ ['.'] := hmem
  simp at this

theorem obtainDirectory_empty {T : Type} (d : DirectoryMulti T) :
    d.obtainDirectory "" = .error (.InvalidPath "") := by
  rw [DirectoryMulti.obtainDirectory]
  simp

theorem obtainDirectory_dot {T : Type} (d : DirectoryMulti T) :
    d.obtainDirectory "." = .ok d := by
  rw [DirectoryMulti.obtainDirectory]
  simp

theorem obtainDirectory_named {T : Type} (d : DirectoryMulti T) {n : String}
    (hne : n ≠ "") (hdot : n ≠ ".") :
    d.obtainDirectory n =
      match lookupKey d.directory n with
      | some dir => .ok dir
      | none => .error (.NoDirectory n) := by
  rw [DirectoryMulti.obtainDirectory]
  simp [hne, hdot]

theorem splitOnceList_some_eq {l a b : List Char}
    (h : splitOnceList l = some (a, b)) : l = a ++ '/' :: b := by
  induction l generalizing a b with
  | nil => simp [splitOnceList] at h
  | cons c rest ih =>
    simp only [splitOnceList] at h
    by_cases hc : c = '/'
    · rw [if_pos hc] at h
      simp only [Option.some.injEq, Prod.mk.injEq] at h
      rw [← h.1, ← h.2, hc]
      rfl
    · simp only [if_neg hc, Option.map_eq_some'] at h
      rcases h with ⟨p, hp, he⟩
      rcases p with ⟨p1, p2⟩
      simp only [Prod.mk.injEq] at he
      have hrest : rest = p1 ++ '/' :: p2 := ih hp
      rw [← he.1, ← he.2, hrest]
      rfl

theorem splitOnce_some_data {s a b : String}
    (h : splitOnce s = some (a, b)) : s.data = a.data ++ '/' :: b.data := by
  simp only [splitOnce, Option.map_eq_some'] at h
  rcases h with ⟨p, hp, he⟩
  rcases p with ⟨p1, p2⟩
  simp only [Prod.mk.injEq] at he
  have := splitOnceList_some_eq hp
  rw [← he.1, ← he.2]
  exact this

theorem ne_of_mem_directory {T : Type} {d : DirectoryMulti T}
    {kv : String × DirectoryMulti T} (hm : kv ∈ d.directory) : d ≠ kv.2 := by
  intro he
  have h1 : sizeOf kv < sizeOf d.directory := List.sizeOf_lt_of_mem hm
  have h2 : sizeOf kv.2 < sizeOf kv := by
    rcases kv with ⟨k, w⟩
    simp only [Prod.mk.sizeOf_spec]
    omega
  have h3 : sizeOf d.directory < sizeOf d := by
    cases d with
    | mk n p dep f ds =>
      simp only [DirectoryMulti.directory, DirectoryMulti.mk.sizeOf_spec]
      omega
  have h4 : sizeOf d = sizeOf kv.2 := by rw [he]
  omega

/-- Adding one extra entry (under key K) at the end of a children map is
invisible to `borrow_directory` for every path shorter than K, except that a
pure self-alias path (all "." segments) returns the directory itself on both
sides — never the appended entry. -/
theorem borrow_skips_appended {T : Type} (K : String) (v : DirectoryMulti T) :
    ∀ (k : Nat) (r : String), r.data.length ≤ k →
    r.data.length < K.data.length →
    ∀ (d : DirectoryMulti T),
    (d.setDirectory (d.directory ++ [(K, v)])).borrowDirectory r =
        d.borrowDirectory r ∨
    ((d.setDirectory (d.directory ++ [(K, v)])).borrowDirectory r =
        .ok (d.setDirectory (d.directory ++ [(K, v)])) ∧
      d.borrowDirectory r = .ok d) := by
  intro k
  induction k with
  | zero =>
    intro r hr hK d
    have hnil : r.data = [] := List.length_eq_zero.mp (Nat.le_zero.mp hr)
    have hsp : splitOnce r = none := by
      rw [splitOnce, hnil]
      rfl
    have hre : r = "" := by
      apply String.ext
      simpa using hnil
    rw [borrowDirectory_last _ hsp, borrowDirectory_last _ hsp, hre]
    left
    rw [obtainDirectory_empty, obtainDirectory_empty]
  | succ k ih =>
    intro r hr hK d
    cases hsp : splitOnce r with
    | none =>
      rw [borrowDirectory_last _ hsp, borrowDirectory_last _ hsp]
      by_cases hre : r = ""
      · left
        rw [hre, obtainDirectory_empty, obtainDirectory_empty]
      · by_cases hrd : r = "."
        · right
          rw [hrd, obtainDirectory_dot, obtainDirectory_dot]
          exact ⟨rfl, rfl⟩
        · left
          have hrK : r ≠ K := by
            intro h
            rw [h] at hK
            omega
          rw [obtainDirectory_named _ hre hrd, obtainDirectory_named _ hre hrd,
            dirMulti_setDirectory_directory, lookupKey_append_other _ hrK]
    | some sr =>
      rcases sr with ⟨s, rest⟩
      have hlen1 : rest.data.length ≤ k := by
        have := splitOnce_some_length hsp
        omega
      have hlen2 : rest.data.length < K.data.length := by
        have := splitOnce_some_length hsp
        omega
      rw [borrowDirectory_descend _ hsp, borrowDirectory_descend _ hsp]
      by_cases hse : s = ""
      · left
        rw [hse, obtainDirectory_empty, obtainDirectory_empty]
      · by_cases hsd : s = "."
        · rw [hsd, obtainDirectory_dot, obtainDirectory_dot]
          exact ih rest hlen1 hlen2 d
        · left
          have hsK : s ≠ K := by
            intro h
            have hd := congrArg List.length (splitOnce_some_data hsp)
            simp only [List.length_append, List.length_cons] at hd
            rw [h] at hd
            omega
          rw [obtainDirectory_named _ hse hsd, obtainDirectory_named _ hse hsd,
            dirMulti_setDirectory_directory, lookupKey_append_other _ hsK]

/-- C10: every name containing "/" that is not an existing child key is
accepted by `add_directory` and stored literally as a direct child, yet path
lookup splits at the first "/" and descends, never consulting the literal
key.  For a first segment other than "." the lookup result is exactly what it
was before the insertion; in general (including names like "./..." whose
leading segments are the "." self-alias) the result either equals the
pre-insertion result or is the recipient directory itself — and it is never
the stored child. -/
theorem slash_name_unreachable {T : Type} (d c : DirectoryMulti T)
    (a b : String) (hasl : '/' ∉ a.data)
    (hfree : containsKey d.directory (a ++ "/" ++ b) = false) :
    (d.addDirectory (a ++ "/" ++ b) c).2 = .ok (a ++ "/" ++ b) ∧
    lookupKey (d.addDirectory (a ++ "/" ++ b) c).1.directory (a ++ "/" ++ b) =
      some (c.stamp (a ++ "/" ++ b)
        (if d.path = "" then a ++ "/" ++ b else d.path ++ "/" ++ (a ++ "/" ++ b))
        (d.depth + 1)) ∧
    (a ≠ "." →
      (d.addDirectory (a ++ "/" ++ b) c).1.borrowDirectory (a ++ "/" ++ b) =
        d.borrowDirectory (a ++ "/" ++ b)) ∧
    ((d.addDirectory (a ++ "/" ++ b) c).1.borrowDirectory (a ++ "/" ++ b) =
        d.borrowDirectory (a ++ "/" ++ b) ∨
      ((d.addDirectory (a ++ "/" ++ b) c).1.borrowDirectory (a ++ "/" ++ b) =
          .ok (d.addDirectory (a ++ "/" ++ b) c).1 ∧
        d.borrowDirectory (a ++ "/" ++ b) = .ok d)) ∧
    (d.addDirectory (a ++ "/" ++ b) c).1 ≠
      c.stamp (a ++ "/" ++ b)
        (if d.path = "" then a ++ "/" ++ b else d.path ++ "/" ++ (a ++ "/" ++ b))
        (d.depth + 1) := by
  have hne : a ++ "/" ++ b ≠ "" := slash_append_ne_empty a b
  have hdot : a ++ "/" ++ b ≠ "." := slash_append_ne_dot a b
  have haneq : a ≠ a ++ "/" ++ b := by
    intro h
    have : '/' ∈ a.data := by
      rw [h]
      simp [data_append]
    exact hasl this
  have hadd : d.addDirectory (a ++ "/" ++ b) c =
      (d.setDirectory (d.directory ++ [(a ++ "/" ++ b, c.stamp (a ++ "/" ++ b)
        (if d.path = "" then a ++ "/" ++ b else d.path ++ "/" ++ (a ++ "/" ++ b))
        (d.depth + 1))]), .ok (a ++ "/" ++ b)) := by
    rw [DirectoryMulti.addDirectory]
    simp [hne, hdot, hfree, insertKey_not_contains hfree]
  have hsplit : splitOnce (a ++ "/" ++ b) = some (a, b) :=
    splitOnce_append_no_slash a b hasl
  have hlenb : b.data.length < (a ++ "/" ++ b).data.length := by
    simp only [data_append, List.length_append, List.length_cons]
    omega
  refine ⟨by rw [hadd], ?_, ?_, ?_, ?_⟩
  · rw [hadd]
    rw [dirMulti_setDirectory_directory]
    exact lookupKey_append_self hfree _
  · intro hadot
    rw [hadd]
    simp only
    rw [borrowDirectory_descend _ hsplit, borrowDirectory_descend _ hsplit]
    by_cases ha0 : a = ""
    · rw [ha0, obtainDirectory_empty, obtainDirectory_empty]
    · rw [obtainDirectory_named _ ha0 hadot, obtainDirectory_named _ ha0 hadot,
        dirMulti_setDirectory_directory, lookupKey_append_other _ haneq]
  · rw [hadd]
    simp only
    by_cases hadot : a = "."
    · subst hadot
      rw [borrowDirectory_descend _ hsplit, borrowDirectory_descend _ hsplit,
        obtainDirectory_dot, obtainDirectory_dot]
      exact borrow_skips_appended _ _ b.data.length b le_rfl hlenb d
    · left
      rw [borrowDirectory_descend _ hsplit, borrowDirectory_descend _ hsplit]
      by_cases ha0 : a = ""
      · rw [ha0, obtainDirectory_empty, obtainDirectory_empty]
      · rw [obtainDirectory_named _ ha0 hadot, obtainDirectory_named _ ha0 hadot,
          dirMulti_setDirectory_directory, lookupKey_append_other _ haneq]
  · rw [hadd]
    simp only
    have hmem : (a ++ "/" ++ b, c.stamp (a ++ "/" ++ b)
        (if d.path = "" then a ++ "/" ++ b else d.path ++ "/" ++ (a ++ "/" ++ b))
        (d.depth + 1)) ∈
        (d.setDirectory (d.directory ++ [(a ++ "/" ++ b, c.stamp (a ++ "/" ++ b)
          (if d.path = "" then a ++ "/" ++ b
            else d.path ++ "/" ++ (a ++ "/" ++ b))
          (d.depth + 1))])).directory := by
      rw [dirMulti_setDirectory_directory]
      exact List.mem_append_right _ (List.mem_singleton.mpr rfl)
    exact ne_of_mem_directory hmem

/-- C10 witness: adding "a/b" to a root with no child "a" succeeds and stores
the literal key, while borrowing "a/b" fails with `NoDirectory "a"` both
before and after the insertion. -/
theorem slash_name_unreachable_witness :
    ((DirectoryMulti.newRoot "r" : DirectoryMulti Nat).addDirectory
      ("a" ++ "/" ++ "b") DirectoryMulti.new).2 = .ok ("a" ++ "/" ++ "b") ∧
    ((DirectoryMulti.newRoot "r" : DirectoryMulti Nat).addDirectory
      ("a" ++ "/" ++ "b") DirectoryMulti.new).1.borrowDirectory ("a" ++ "/" ++ "b") =
      (DirectoryMulti.newRoot "r" : DirectoryMulti Nat).borrowDirectory
        ("a" ++ "/" ++ "b") := by
  have h := slash_name_unreachable (DirectoryMulti.newRoot "r" : DirectoryMulti Nat)
    DirectoryMulti.new "a" "b" (by decide) (by rfl)
  exact ⟨h.1, h.2.2.1 (by decide)⟩

theorem digitChar_ne_slash (m : Nat) : Nat.digitChar m ≠ '/' := by
  match m with
  | 0 => decide
  | 1 => decide
  | 2 => decide
  | 3 => decide
  | 4 => decide
  | 5 => decide
  | 6 => decide
  | 7 => decide
  | 8 => decide
  | 9 => decide
  | 10 => decide
  | 11 => decide
  | 12 => decide
  | 13 => decide
  | 14 => decide
  | 15 => decide
  | n + 16 =>
    unfold Nat.digitChar
    repeat rw [if_neg (by omega)]
    decide

theorem toDigitsCore_no_slash (b : Nat) : ∀ (fuel n : Nat) (ds : List Char),
    '/' ∉ ds → '/' ∉ Nat.toDigitsCore b fuel n ds := by
  intro fuel
  induction fuel with
  | zero =>
    intro n ds h
    simpa [Nat.toDigitsCore] using h
  | succ f ih =>
    intro n ds h
    rw [Nat.toDigitsCore]
    have hd : '/' ∉ (n % b).digitChar :: ds := by
      intro hm
      rcases List.mem_cons.mp hm with h1 | h2
      · exact digitChar_ne_slash _ h1.symm
      · exact h h2
    by_cases hz : n / b = 0
    · simp only [hz, if_pos rfl]
      exact hd
    · simp only [if_neg hz]
      exact ih _ _ hd

theorem toString_nat_no_slash (n : Nat) : '/' ∉ (toString n).data :=
  toDigitsCore_no_slash 10 (n + 1) n [] (by simp)

theorem genName_no_slash (n : Nat) : '/' ∉ (".||#:" ++ toString n).data := by
  rw [data_append]
  intro hm
  rcases List.mem_append.mp hm with h1 | h2
  · have : '/' ∈ ['.', '|', '|', '#', ':'] := h1
    simp at this
  · exact toString_nat_no_slash n h2

theorem genName_ne_empty (s : String) : ".||#:" ++ s ≠ "" := by
  intro h
  have := congrArg (fun t => t.data.length) h
  simp [data_append] at this

theorem genName_ne_dot (s : String) : ".||#:" ++ s ≠ "." := by
  intro h
  have := congrArg (fun t => t.data.length) h
  simp [data_append] at this

theorem genLoop_all_taken {α : Type} (l : List (String × α)) (len : Nat) :
    ∀ (k i : Nat) (gen : String), 100 - i = k → i ≤ 100 →
    containsKey l gen = true →
    (∀ j, i ≤ j → j ≤ 99 →
      containsKey l (".||#:" ++ toString (len + j)) = true) →
    genLoop l len i gen =
      .error (.InvalidPath "Failed to generate name, max threshold reached!") := by
  intro k
  induction k with
  | zero =>
    intro i gen hk hle hcont hall
    have hi : i = 100 := by omega
    subst hi
    exact genLoop_exhausted len hcont (by omega)
  | succ k ih =>
    intro i gen hk hle hcont hall
    have hi : i ≤ 99 := by omega
    rw [genLoop_step len hcont (by omega)]
    exact ih (i + 1) _ (by omega) (by omega) (hall i le_rfl hi)
      (fun j hj1 hj2 => hall j (by omega) hj2)

theorem addDirectory_empty_ok {T : Type} (d c : DirectoryMulti T) {g : String}
    (h : genLoop d.directory d.directory.length 0
      (".||#:" ++ toString d.directory.length) = .ok g) :
    d.addDirectory "" c =
      (d.setDirectory (insertKey d.directory g
        (c.stamp g (if d.path = "" then g else d.path ++ "/" ++ g)
          (d.depth + 1))), .ok g) := by
  rw [addDirectory_empty_eq, h]

theorem addDirectory_empty_error {T : Type} (d c : DirectoryMulti T)
    {e : PathioError}
    (h : genLoop d.directory d.directory.length 0
      (".||#:" ++ toString d.directory.length) = .error e) :
    d.addDirectory "" c = (d, .error e) := by
  rw [addDirectory_empty_eq, h]

/-- C5: creating with the empty name triggers anonymous-name generation.  If
the candidate `".||#:K"` (K the current child count) is free, the created
child carries exactly that name and is addressable via `borrow_directory`;
if it is taken but the next suffix is free, that next suffix is used; if all
100 scanned suffixes are taken, the call fails with `InvalidPath` leaving the
directory unchanged. -/
theorem anonymous_creation {T : Type} (d : DirectoryMulti T) :
    (containsKey d.directory (".||#:" ++ toString d.directory.length) = false →
      (d.createDirectory "").2 = .ok (".||#:" ++ toString d.directory.length) ∧
      (d.createDirectory "").1.borrowDirectory
          (".||#:" ++ toString d.directory.length) =
        .ok (DirectoryMulti.mk (".||#:" ++ toString d.directory.length)
          (if d.path = "" then ".||#:" ++ toString d.directory.length
            else d.path ++ "/" ++ (".||#:" ++ toString d.directory.length))
          (d.depth + 1) [] [])) ∧
    (containsKey d.directory (".||#:" ++ toString d.directory.length) = true →
      containsKey d.directory
        (".||#:" ++ toString (d.directory.length + 1)) = false →
      (d.createDirectory "").2 =
        .ok (".||#:" ++ toString (d.directory.length + 1))) ∧
    ((∀ j, j ≤ 99 → containsKey d.directory
        (".||#:" ++ toString (d.directory.length + j)) = true) →
      d.createDirectory "" =
        (d, .error (.InvalidPath "Failed to generate name, max threshold reached!"))) := by
  have hcr : d.createDirectory "" = d.addDirectory "" DirectoryMulti.new := by
    rw [DirectoryMulti.createDirectory, DirectoryMulti.insertDirectory,
      show rsplitOnce "" = none from rfl]
  refine ⟨?_, ?_, ?_⟩
  · intro hfree
    have hg : genLoop d.directory d.directory.length 0
        (".||#:" ++ toString d.directory.length) =
        .ok (".||#:" ++ toString d.directory.length) :=
      genLoop_free _ _ hfree
    rw [hcr, addDirectory_empty_ok _ _ hg]
    refine ⟨rfl, ?_⟩
    rw [insertKey_not_contains hfree]
    rw [borrowDirectory_last _
      (splitOnce_none_of_no_slash _ (genName_no_slash d.directory.length))]
    rw [DirectoryMulti.obtainDirectory]
    simp only [genName_ne_empty, genName_ne_dot, if_neg, not_false_eq_true,
      if_true, dirMulti_setDirectory_directory]
    rw [lookupKey_append_self hfree]
    rw [DirectoryMulti.new]
    rfl
  · intro hcont hfree1
    have hg : genLoop d.directory d.directory.length 0
        (".||#:" ++ toString d.directory.length) =
        .ok (".||#:" ++ toString (d.directory.length + 1)) := by
      rw [genLoop_step _ hcont (by omega)]
      simp only [Nat.add_zero]
      rw [genLoop_step _ hcont (by omega)]
      simp only [Nat.zero_add]
      exact genLoop_free _ _ hfree1
    rw [hcr, addDirectory_empty_ok _ _ hg]
  · intro hall
    have hcont : containsKey d.directory
        (".||#:" ++ toString d.directory.length) = true := by
      have := hall 0 (by omega)
      simpa using this
    have herr := genLoop_all_taken d.directory d.directory.length 100 0
      (".||#:" ++ toString d.directory.length) rfl (by omega) hcont
      (fun j hj1 hj2 => hall j hj2)
    rw [hcr, addDirectory_empty_error _ _ herr]

/-- C5 witness: on a fresh root the generated name is ".||#:0"; on a
directory whose 100 children are named ".||#:100" through ".||#:199" (so the
child count is 100 and every scanned candidate is taken), creation with the
empty name fails with `InvalidPath` and leaves the directory unchanged. -/
theorem anonymous_creation_witness :
    ((DirectoryMulti.newRoot "r" : DirectoryMulti Nat).createDirectory "").2 =
      .ok (".||#:" ++ toString (0 : Nat)) ∧
    (DirectoryMulti.mk "r" "" 0 [] ((List.range 100).map
        (fun j => (".||#:" ++ toString (100 + j),
          (DirectoryMulti.new : DirectoryMulti Nat))))).createDirectory "" =
      (DirectoryMulti.mk "r" "" 0 [] ((List.range 100).map
        (fun j => (".||#:" ++ toString (100 + j),
          (DirectoryMulti.new : DirectoryMulti Nat)))),
        .error (.InvalidPath "Failed to generate name, max threshold reached!")) := by
  constructor
  · exact ((anonymous_creation (DirectoryMulti.newRoot "r" :
      DirectoryMulti Nat)).1 (by rfl)).1
  · exact (anonymous_creation _).2.2 (by decide)

theorem containsKey_eq_mem_keys {α : Type} (l : List (String × α)) (k : String) :
    containsKey l k = true ↔ k ∈ l.map Prod.fst := by
  simp [containsKey]

theorem containsKey_removeKey_self {α : Type} {l : List (String × α)}
    {n : String} (hnodup : (l.map Prod.fst).Nodup) :
    containsKey (removeKey l n) n = false := by
  induction l with
  | nil => rfl
  | cons kv rest ih =>
    rw [List.map_cons, List.nodup_cons] at hnodup
    by_cases hk : kv.1 = n
    · rw [removeKey, if_pos hk]
      rw [Bool.eq_false_iff]
      intro hcont
      have := (containsKey_eq_mem_keys rest n).mp hcont
      rw [← hk] at this
      exact hnodup.1 this
    · rw [removeKey, if_neg hk]
      rw [containsKey_cons]
      simp only [Bool.or_eq_false_iff, decide_eq_false_iff_not]
      exact ⟨hk, ih hnodup.2⟩

theorem lookupKey_removeKey_other {α : Type} (l : List (String × α))
    {n k : String} (h : k ≠ n) :
    lookupKey (removeKey l n) k = lookupKey l k := by
  induction l with
  | nil => rfl
  | cons kv rest ih =>
    by_cases hk : kv.1 = n
    · rw [removeKey, if_pos hk, lookupKey, if_neg (by rw [hk]; exact Ne.symm h)]
    · rw [removeKey, if_neg hk]
      by_cases hk2 : kv.1 = k
      · rw [lookupKey, if_pos hk2, lookupKey, if_pos hk2]
      · rw [lookupKey, if_neg hk2, lookupKey, if_neg hk2, ih]

theorem dirMulti_setDirectory_setDirectory {T : Type} (d : DirectoryMulti T)
    (x y : List (String × DirectoryMulti T)) :
    (d.setDirectory x).setDirectory y = d.setDirectory y := by
  cases d
  rfl

/-- C7: for a well-formed tree with a direct child `c` stored under key N
(cached fields consistent: `c.name = N`, `c.path` derived from the parent
path, `c.depth = parent depth + 1`), `take_directory(N)` followed by
`add_directory(N, c)` restores the original directory: same cached fields,
same file map, and the children map answers every lookup as before. -/
theorem take_then_add_roundtrip {T : Type} (d c : DirectoryMulti T) (n : String)
    (hnodup : (d.directory.map Prod.fst).Nodup)
    (hlook : lookupKey d.directory n = some c)
    (hname : c.name = n)
    (hpath : c.path = (if d.path = "" then n else d.path ++ "/" ++ n))
    (hdepth : c.depth = d.depth + 1)
    (hne : n ≠ "") (hdot : n ≠ ".") :
    (d.takeDirectory n).2 = .ok c ∧
    ((d.takeDirectory n).1.addDirectory n c).2 = .ok n ∧
    ((d.takeDirectory n).1.addDirectory n c).1.name = d.name ∧
    ((d.takeDirectory n).1.addDirectory n c).1.path = d.path ∧
    ((d.takeDirectory n).1.addDirectory n c).1.depth = d.depth ∧
    ((d.takeDirectory n).1.addDirectory n c).1.file = d.file ∧
    ∀ k, lookupKey ((d.takeDirectory n).1.addDirectory n c).1.directory k =
      lookupKey d.directory k := by
  have htake : d.takeDirectory n =
      (d.setDirectory (removeKey d.directory n), .ok c) := by
    rw [DirectoryMulti.takeDirectory, hlook]
  have hfree : containsKey (removeKey d.directory n) n = false :=
    containsKey_removeKey_self hnodup
  have hstamp : c.stamp n (if d.path = "" then n else d.path ++ "/" ++ n)
      (d.depth + 1) = c := by
    cases c with
    | mk cn cp cd cf cds =>
      simp only [DirectoryMulti.stamp]
      simp only [dirMulti_name_mk] at hname
      simp only [dirMulti_path_mk] at hpath
      simp only [dirMulti_depth_mk] at hdepth
      rw [hname, ← hpath, ← hdepth]
  have hadd : (d.setDirectory (removeKey d.directory n)).addDirectory n c =
      (d.setDirectory (removeKey d.directory n ++ [(n, c)]), .ok n) := by
    rw [DirectoryMulti.addDirectory]
    simp only [hne, hdot, if_neg, not_false_eq_true, if_true,
      dirMulti_setDirectory_directory, dirMulti_setDirectory_path,
      dirMulti_setDirectory_depth, hfree]
    rw [insertKey_not_contains hfree, hstamp,
      dirMulti_setDirectory_setDirectory]
  rw [htake]
  simp only
  rw [hadd]
  refine ⟨trivial, rfl, ?_, ?_, ?_, ?_, ?_⟩
  · simp
  · simp
  · simp
  · simp
  intro k
  rw [dirMulti_setDirectory_directory]
  by_cases hk : k = n
  · subst hk
    rw [lookupKey_append_self hfree, hlook]
  · rw [lookupKey_append_other _ hk, lookupKey_removeKey_other _ hk]

/-- C7 witness: concrete round trip on a root with a single consistently
stamped child "a". -/
theorem take_then_add_roundtrip_witness :
    ((DirectoryMulti.mk "r" "" 0 [] [("a", DirectoryMulti.mk "a" "a" 1 [] [])] :
      DirectoryMulti Nat).takeDirectory "a").2 =
        .ok (DirectoryMulti.mk "a" "a" 1 [] []) ∧
    lookupKey (((DirectoryMulti.mk "r" "" 0 []
        [("a", DirectoryMulti.mk "a" "a" 1 [] [])] :
      DirectoryMulti Nat).takeDirectory "a").1.addDirectory "a"
        (DirectoryMulti.mk "a" "a" 1 [] [])).1.directory "a" =
      some (DirectoryMulti.mk "a" "a" 1 [] []) := by
  have h := take_then_add_roundtrip
    (DirectoryMulti.mk "r" "" 0 [] [("a", DirectoryMulti.mk "a" "a" 1 [] [])] :
      DirectoryMulti Nat)
    (DirectoryMulti.mk "a" "a" 1 [] []) "a"
    (by simp) (by rfl) (by rfl) (by rfl) (by rfl) (by decide) (by decide)
  refine ⟨h.1, ?_⟩
  rw [h.2.2.2.2.2.2 "a"]
  rfl

/-- Discriminator: errors that only the validation (scan) phase of `merge`
can produce. -/
def isMergeScanErr : PathioError → Bool
  | .DuplicateName _ => true
  | .FileConflict => true
  | _ => false

theorem genLoop_error_shape {α : Type} (l : List (String × α)) (len : Nat) :
    ∀ (k i : Nat) (gen : String) (e : PathioError), 100 - i = k →
    genLoop l len i gen = .error e →
    e = .InvalidPath "Failed to generate name, max threshold reached!" := by
  intro k
  induction k with
  | zero =>
    intro i gen e hk h
    by_cases hc : containsKey l gen = true
    · rw [genLoop_exhausted len hc (by omega)] at h
      cases h
      rfl
    · rw [genLoop_free len i (by simpa using hc)] at h
      cases h
  | succ k ih =>
    intro i gen e hk h
    by_cases hc : containsKey l gen = true
    · rw [genLoop_step len hc (by omega)] at h
      exact ih (i + 1) _ e (by omega) h
    · rw [genLoop_free len i (by simpa using hc)] at h
      cases h

theorem addDirectory_error_shape {T : Type} (d c : DirectoryMulti T)
    (n : String) (e : PathioError) (h : (d.addDirectory n c).2 = .error e) :
    isMergeScanErr e = false := by
  rw [DirectoryMulti.addDirectory] at h
  by_cases hne : n = ""
  · simp only [hne, if_neg, not_true_eq_false, if_false, reduceIte] at h
    cases hg : genLoop d.directory d.directory.length 0
        (".||#:" ++ toString d.directory.length) with
    | error e2 =>
      rw [hg] at h
      simp only at h
      cases h
      rw [genLoop_error_shape d.directory d.directory.length 100 0 _ _ rfl hg]
      rfl
    | ok g =>
      rw [hg] at h
      simp at h
  · by_cases hdot : n = "."
    · simp only [hne, hdot, if_true, if_neg, not_false_eq_true] at h
      cases h
      rfl
    · by_cases hcont : containsKey d.directory n = false
      · simp [hne, hdot, hcont] at h
      · simp only [hne, hdot, hcont, not_false_eq_true, if_true, if_false,
          reduceIte] at h
        cases h
        rfl

theorem addFile_error_shape {T : Type} (d : DirectoryMulti T) (n : String)
    (v : T) (e : PathioError) (h : (d.addFile n v).2 = .error e) :
    isMergeScanErr e = false := by
  rw [DirectoryMulti.addFile] at h
  by_cases hc : containsKey d.file n = false
  · simp [hc] at h
  · simp only [hc, if_false, reduceIte] at h
    cases h
    rfl

theorem obtainMutApply_error_shape {T α : Type}
    (f : DirectoryMulti T → DirectoryMulti T × Except PathioError α)
    (hf : ∀ s e, (f s).2 = .error e → isMergeScanErr e = false) :
    ∀ (d : DirectoryMulti T) (n : String) (e : PathioError),
    (DirectoryMulti.obtainMutApply f d n).2 = .error e →
    isMergeScanErr e = false := by
  intro d n e h
  rw [DirectoryMulti.obtainMutApply] at h
  by_cases hne : n = ""
  · simp only [hne, not_true_eq_false, if_false, reduceIte] at h
    cases h
    rfl
  · by_cases hdot : n = "."
    · simp only [hne, hdot, not_false_eq_true, if_true] at h
      exact hf d e h
    · simp only [hne, hdot, not_false_eq_true, if_true, if_false, reduceIte] at h
      cases hl : lookupKey d.directory n with
      | some sub =>
        rw [hl] at h
        simp only at h
        exact hf sub e h
      | none =>
        rw [hl] at h
        simp only at h
        cases h
        rfl

theorem walkFirst_error_shape {T α : Type}
    (base : DirectoryMulti T → String → DirectoryMulti T × Except PathioError α)
    (hbase : ∀ s n e, (base s n).2 = .error e → isMergeScanErr e = false) :
    ∀ (k : Nat) (p : String), p.data.length ≤ k →
    ∀ (d : DirectoryMulti T) (e : PathioError),
    (DirectoryMulti.walkFirst base d p).2 = .error e →
    isMergeScanErr e = false := by
  intro k
  induction k with
  | zero =>
    intro p hp d e h
    have hnil : p.data = [] := List.length_eq_zero.mp (Nat.le_zero.mp hp)
    have hsp : splitOnce p = none := by
      rw [splitOnce, hnil]
      rfl
    rw [walkFirst_last base d hsp] at h
    exact hbase d p e h
  | succ k ih =>
    intro p hp d e h
    cases hsp : splitOnce p with
    | none =>
      rw [walkFirst_last base d hsp] at h
      exact hbase d p e h
    | some br =>
      rcases br with ⟨branch, rest⟩
      have hlen : rest.data.length ≤ k := by
        have := splitOnce_some_length hsp
        omega
      rw [walkFirst_descend base d hsp] at h
      by_cases hne : branch = ""
      · simp only [hne, not_true_eq_false, if_false, reduceIte] at h
        cases h
        rfl
      · by_cases hdot : branch = "."
        · simp only [hne, hdot, not_false_eq_true, if_true] at h
          exact ih rest hlen d e h
        · simp only [hne, hdot, not_false_eq_true, if_true, if_false,
            reduceIte] at h
          cases hl : lookupKey d.directory branch with
          | some sub =>
            rw [hl] at h
            simp only at h
            exact ih rest hlen sub e h
          | none =>
            rw [hl] at h
            simp only at h
            cases h
            rfl

theorem insertDirectory_error_shape {T : Type} (d c : DirectoryMulti T)
    (p : String) (e : PathioError)
    (h : (d.insertDirectory p c).2 = .error e) : isMergeScanErr e = false := by
  rw [DirectoryMulti.insertDirectory] at h
  cases hr : rsplitOnce p with
  | none =>
    rw [hr] at h
    exact addDirectory_error_shape d c p e h
  | some pr =>
    rcases pr with ⟨dirPath, n⟩
    rw [hr] at h
    simp only [DirectoryMulti.modifyAtPath] at h
    exact walkFirst_error_shape _
      (fun s m e2 h2 => obtainMutApply_error_shape _
        (fun s2 e3 h3 => addDirectory_error_shape s2 c n e3 h3) s m e2 h2)
      dirPath.data.length dirPath le_rfl d e h

theorem insertFile_error_shape {T : Type} (d : DirectoryMulti T)
    (p : String) (v : T) (e : PathioError)
    (h : (d.insertFile p v).2 = .error e) : isMergeScanErr e = false := by
  rw [DirectoryMulti.insertFile] at h
  cases hr : rsplitOnce p with
  | none =>
    rw [hr] at h
    exact addFile_error_shape d p v e h
  | some pr =>
    rcases pr with ⟨dirPath, n⟩
    rw [hr] at h
    simp only [DirectoryMulti.modifyAtPath] at h
    exact walkFirst_error_shape _
      (fun s m e2 h2 => obtainMutApply_error_shape _
        (fun s2 e3 h3 => addFile_error_shape s2 n v e3 h3) s m e2 h2)
      dirPath.data.length dirPath le_rfl d e h

theorem applyFiles_error_shape {T : Type} :
    ∀ (fs : List (String × T)) (d : DirectoryMulti T) (e : PathioError),
    (DirectoryMulti.applyFiles d fs).2 = .error e →
    isMergeScanErr e = false := by
  intro fs
  induction fs with
  | nil =>
    intro d e h
    cases h
  | cons kv rest ih =>
    intro d e h
    rcases kv with ⟨n, v⟩
    rw [DirectoryMulti.applyFiles] at h
    cases hi : d.insertFile n v with
    | mk s r =>
      cases r with
      | ok u =>
        rw [hi] at h
        exact ih s e h
      | error e2 =>
        rw [hi] at h
        simp only at h
        cases h
        exact insertFile_error_shape d n v e (by rw [hi])
  
theorem applyDirs_error_shape {T : Type} :
    ∀ (gs : List (String × DirectoryMulti T)) (d : DirectoryMulti T)
    (e : PathioError),
    (DirectoryMulti.applyDirs d gs).2 = .error e →
    isMergeScanErr e = false := by
  intro gs
  induction gs with
  | nil =>
    intro d e h
    cases h
  | cons kv rest ih =>
    intro d e h
    rcases kv with ⟨n, c⟩
    rw [DirectoryMulti.applyDirs] at h
    cases hi : d.insertDirectory n c with
    | mk s r =>
      cases r with
      | ok u =>
        rw [hi] at h
        exact ih s e h
      | error e2 =>
        rw [hi] at h
        simp only at h
        cases h
        exact insertDirectory_error_shape d c n e (by rw [hi])

theorem addDirectoryS_error_shape {T : Type} (d c : DirectorySingle T)
    (n : String) (e : PathioError) (h : (d.addDirectory n c).2 = .error e) :
    isMergeScanErr e = false := by
  rw [DirectorySingle.addDirectory] at h
  by_cases hne : n = ""
  · simp only [hne, if_neg, not_true_eq_false, if_false, reduceIte] at h
    cases hg : genLoop d.directory d.directory.length 0
        (".||#:" ++ toString d.directory.length) with
    | error e2 =>
      rw [hg] at h
      simp only at h
      cases h
      rw [genLoop_error_shape d.directory d.directory.length 100 0 _ _ rfl hg]
      rfl
    | ok g =>
      rw [hg] at h
      simp at h
  · by_cases hdot : n = "."
    · simp only [hne, hdot, if_true, if_neg, not_false_eq_true] at h
      cases h
      rfl
    · by_cases hcont : containsKey d.directory n = false
      · simp [hne, hdot, hcont] at h
      · simp only [hne, hdot, hcont, not_false_eq_true, if_true, if_false,
          reduceIte] at h
        cases h
        rfl

theorem obtainMutApplyS_error_shape {T α : Type}
    (f : DirectorySingle T → DirectorySingle T × Except PathioError α)
    (hf : ∀ s e, (f s).2 = .error e → isMergeScanErr e = false) :
    ∀ (d : DirectorySingle T) (n : String) (e : PathioError),
    (DirectorySingle.obtainMutApply f d n).2 = .error e →
    isMergeScanErr e = false := by
  intro d n e h
  rw [DirectorySingle.obtainMutApply] at h
  by_cases hne : n = ""
  · simp only [hne, not_true_eq_false, if_false, reduceIte] at h
    cases h
    rfl
  · by_cases hdot : n = "."
    · simp only [hne, hdot, not_false_eq_true, if_true] at h
      exact hf d e h
    · simp only [hne, hdot, not_false_eq_true, if_true, if_false, reduceIte] at h
      cases hl : lookupKey d.directory n with
      | some sub =>
        rw [hl] at h
        simp only at h
        exact hf sub e h
      | none =>
        rw [hl] at h
        simp only at h
        cases h
        rfl

theorem walkFirstS_error_shape {T α : Type}
    (base : DirectorySingle T → String → DirectorySingle T × Except PathioError α)
    (hbase : ∀ s n e, (base s n).2 = .error e → isMergeScanErr e = false) :
    ∀ (k : Nat) (p : String), p.data.length ≤ k →
    ∀ (d : DirectorySingle T) (e : PathioError),
    (DirectorySingle.walkFirst base d p).2 = .error e →
    isMergeScanErr e = false := by
  intro k
  induction k with
  | zero =>
    intro p hp d e h
    have hnil : p.data = [] := List.length_eq_zero.mp (Nat.le_zero.mp hp)
    have hsp : splitOnce p = none := by
      rw [splitOnce, hnil]
      rfl
    rw [walkFirstS_last base d hsp] at h
    exact hbase d p e h
  | succ k ih =>
    intro p hp d e h
    cases hsp : splitOnce p with
    | none =>
      rw [walkFirstS_last base d hsp] at h
      exact hbase d p e h
    | some br =>
      rcases br with ⟨branch, rest⟩
      have hlen : rest.data.length ≤ k := by
        have := splitOnce_some_length hsp
        omega
      rw [walkFirstS_descend base d hsp] at h
      by_cases hne : branch = ""
      · simp only [hne, not_true_eq_false, if_false, reduceIte] at h
        cases h
        rfl
      · by_cases hdot : branch = "."
        · simp only [hne, hdot, not_false_eq_true, if_true] at h
          exact ih rest hlen d e h
        · simp only [hne, hdot, not_false_eq_true, if_true, if_false,
            reduceIte] at h
          cases hl : lookupKey d.directory branch with
          | some sub =>
            rw [hl] at h
            simp only at h
            exact ih rest hlen sub e h
          | none =>
            rw [hl] at h
            simp only at h
            cases h
            rfl

theorem insertDirectoryS_error_shape {T : Type} (d c : DirectorySingle T)
    (p : String) (e : PathioError)
    (h : (d.insertDirectory p c).2 = .error e) : isMergeScanErr e = false := by
  rw [DirectorySingle.insertDirectory] at h
  cases hr : rsplitOnce p with
  | none =>
    rw [hr] at h
    exact addDirectoryS_error_shape d c p e h
  | some pr =>
    rcases pr with ⟨dirPath, n⟩
    rw [hr] at h
    simp only [DirectorySingle.modifyAtPath] at h
    exact walkFirstS_error_shape _
      (fun s m e2 h2 => obtainMutApplyS_error_shape _
        (fun s2 e3 h3 => addDirectoryS_error_shape s2 c n e3 h3) s m e2 h2)
      dirPath.data.length dirPath le_rfl d e h

theorem applyDirsS_error_shape {T : Type} :
    ∀ (gs : List (String × DirectorySingle T)) (d : DirectorySingle T)
    (e : PathioError),
    (DirectorySingle.applyDirs d gs).2 = .error e →
    isMergeScanErr e = false := by
  intro gs
  induction gs with
  | nil =>
    intro d e h
    cases h
  | cons kv rest ih =>
    intro d e h
    rcases kv with ⟨n, c⟩
    rw [DirectorySingle.applyDirs] at h
    cases hi : d.insertDirectory n c with
    | mk s r =>
      cases r with
      | ok u =>
        rw [hi] at h
        exact ih s e h
      | error e2 =>
        rw [hi] at h
        simp only at h
        cases h
        exact insertDirectoryS_error_shape d c n e (by rw [hi])

/-- C1 counterexample: a merge can fail *after* mutating the recipient.  The
recipient has a child "a" that itself has a child "b"; the donor has children
under the literal keys "x" and "a/b".  The validation scan passes (neither
"x" nor "a/b" is a recipient key), but the apply phase re-splits "a/b" at the
slash and fails with `NameInUse "b"`, after "x" has already been inserted:
merge returns an error yet the recipient gained a child. -/
theorem merge_apply_phase_mutates :
    ((DirectoryMulti.mk "r" "" 0 []
        [("a", DirectoryMulti.mk "a" "a" 1 []
          [("b", DirectoryMulti.mk "b" "a/b" 2 [] [])])] :
      DirectoryMulti Nat).merge
      (DirectoryMulti.mk "g" "" 0 []
        [("x", DirectoryMulti.new), ("a/b", DirectoryMulti.new)])).2 =
      .error (.NameInUse "b") ∧
    containsKey ((DirectoryMulti.mk "r" "" 0 []
        [("a", DirectoryMulti.mk "a" "a" 1 []
          [("b", DirectoryMulti.mk "b" "a/b" 2 [] [])])] :
      DirectoryMulti Nat).merge
      (DirectoryMulti.mk "g" "" 0 []
        [("x", DirectoryMulti.new), ("a/b", DirectoryMulti.new)])).1.directory
      "x" = true ∧
    containsKey (DirectoryMulti.mk "r" "" 0 []
        [("a", DirectoryMulti.mk "a" "a" 1 []
          [("b", DirectoryMulti.mk "b" "a/b" 2 [] [])])] :
      DirectoryMulti Nat).directory "x" = false := by
  have hmerge : ((DirectoryMulti.mk "r" "" 0 []
      [("a", DirectoryMulti.mk "a" "a" 1 []
        [("b", DirectoryMulti.mk "b" "a/b" 2 [] [])])] :
    DirectoryMulti Nat).merge
    (DirectoryMulti.mk "g" "" 0 []
      [("x", DirectoryMulti.new), ("a/b", DirectoryMulti.new)])) =
      DirectoryMulti.applyDirs
        (DirectoryMulti.mk "r" "" 0 []
          [("a", DirectoryMulti.mk "a" "a" 1 []
            [("b", DirectoryMulti.mk "b" "a/b" 2 [] [])])])
        [("x", DirectoryMulti.new), ("a/b", DirectoryMulti.new)] := rfl
  have hstep1 : DirectoryMulti.insertDirectory
      (DirectoryMulti.mk "r" "" 0 []
        [("a", DirectoryMulti.mk "a" "a" 1 []
          [("b", DirectoryMulti.mk "b" "a/b" 2 [] [])])] : DirectoryMulti Nat)
      "x" DirectoryMulti.new =
      (DirectoryMulti.mk "r" "" 0 []
        [("a", DirectoryMulti.mk "a" "a" 1 []
          [("b", DirectoryMulti.mk "b" "a/b" 2 [] [])]),
         ("x", DirectoryMulti.mk "x" "x" 1 [] [])], .ok "x") := rfl
  have hstep2 : DirectoryMulti.insertDirectory
      (DirectoryMulti.mk "r" "" 0 []
        [("a", DirectoryMulti.mk "a" "a" 1 []
          [("b", DirectoryMulti.mk "b" "a/b" 2 [] [])]),
         ("x", DirectoryMulti.mk "x" "x" 1 [] [])] : DirectoryMulti Nat)
      "a/b" DirectoryMulti.new =
      (DirectoryMulti.mk "r" "" 0 []
        [("a", DirectoryMulti.mk "a" "a" 1 []
          [("b", DirectoryMulti.mk "b" "a/b" 2 [] [])]),
         ("x", DirectoryMulti.mk "x" "x" 1 [] [])],
        .error (.NameInUse "b")) := by
    show DirectoryMulti.modifyAtPath _ _ "a" = _
    rw [DirectoryMulti.modifyAtPath,
      walkFirst_last _ _ (show splitOnce "a" = none from rfl)]
    rfl
  have happly : DirectoryMulti.applyDirs
      (DirectoryMulti.mk "r" "" 0 []
        [("a", DirectoryMulti.mk "a" "a" 1 []
          [("b", DirectoryMulti.mk "b" "a/b" 2 [] [])])] : DirectoryMulti Nat)
      [("x", DirectoryMulti.new), ("a/b", DirectoryMulti.new)] =
      (DirectoryMulti.mk "r" "" 0 []
        [("a", DirectoryMulti.mk "a" "a" 1 []
          [("b", DirectoryMulti.mk "b" "a/b" 2 [] [])]),
         ("x", DirectoryMulti.mk "x" "x" 1 [] [])],
        .error (.NameInUse "b")) := by
    rw [DirectoryMulti.applyDirs, hstep1]
    show DirectoryMulti.applyDirs _ [("a/b", DirectoryMulti.new)] = _
    rw [DirectoryMulti.applyDirs, hstep2]
  rw [hmerge, happly]
  exact ⟨rfl, rfl, rfl⟩

/-- C1 (amended): a merge that fails during the validation phase — with
`DuplicateName` (either policy) or `FileConflict` (Single policy) — leaves
the recipient exactly unmodified.  (An apply-phase failure, reachable only
through donor keys containing "/", can leave the recipient partially
modified, as the counterexample shows; apply-phase failures never carry the
`DuplicateName` or `FileConflict` kinds, so those two kinds do guarantee
atomicity.) -/
theorem merge_validation_failure_atomic {T : Type} (s g : DirectoryMulti T)
    (sS gS : DirectorySingle T) :
    (∀ m, (s.merge g).2 = .error (.DuplicateName m) → (s.merge g).1 = s) ∧
    ((s.merge g).2 = .error .FileConflict → (s.merge g).1 = s) ∧
    (∀ m, (sS.merge gS).2 = .error (.DuplicateName m) → (sS.merge gS).1 = sS) ∧
    ((sS.merge gS).2 = .error .FileConflict → (sS.merge gS).1 = sS) := by
  have hM : ∀ e, isMergeScanErr e = true →
      (s.merge g).2 = .error e → (s.merge g).1 = s := by
    intro e hscan h
    rw [DirectoryMulti.merge] at h ⊢
    cases hf1 : g.file.find? (fun kv => containsKey s.file kv.1) with
    | some kv => rfl
    | none =>
      rw [hf1] at h
      cases hf2 : g.directory.find?
          (fun kv => containsKey s.directory kv.1) with
      | some kv => rfl
      | none =>
        rw [hf2] at h
        exfalso
        cases ha : DirectoryMulti.applyFiles s g.file with
        | mk s2 r =>
          cases r with
          | ok u =>
            rw [ha] at h
            simp only at h
            have := applyDirs_error_shape g.directory s2 e h
            rw [hscan] at this
            cases this
          | error e2 =>
            rw [ha] at h
            simp only at h
            cases h
            have := applyFiles_error_shape g.file s e (by rw [ha])
            rw [hscan] at this
            cases this
  have hS : ∀ e, isMergeScanErr e = true →
      (sS.merge gS).2 = .error e → (sS.merge gS).1 = sS := by
    intro e hscan h
    rw [DirectorySingle.merge] at h ⊢
    by_cases hfile : gS.file.isSome
    · rw [if_pos hfile]
    · rw [if_neg hfile] at h ⊢
      cases hf2 : gS.directory.find?
          (fun kv => containsKey sS.directory kv.1) with
      | some kv => rfl
      | none =>
        rw [hf2] at h
        exfalso
        have := applyDirsS_error_shape gS.directory sS e h
        rw [hscan] at this
        cases this
  exact ⟨fun m hm => hM (.DuplicateName m) rfl hm,
    fun hm => hM .FileConflict rfl hm,
    fun m hm => hS (.DuplicateName m) rfl hm,
    fun hm => hS .FileConflict rfl hm⟩

/-- C1 witness: a Multi merge with a colliding child name "a" fails with
`DuplicateName` and the recipient is unchanged; a Single merge whose donor
carries a file fails with `FileConflict` and the recipient is unchanged. -/
theorem merge_validation_failure_atomic_witness :
    ((DirectoryMulti.mk "r" "" 0 [] [("a", DirectoryMulti.new)] :
        DirectoryMulti Nat).merge
      (DirectoryMulti.mk "g" "" 0 [] [("a", DirectoryMulti.new)])).1 =
      DirectoryMulti.mk "r" "" 0 [] [("a", DirectoryMulti.new)] ∧
    ((DirectorySingle.mk "r" "" 0 none [] : DirectorySingle Nat).merge
      (DirectorySingle.mk "g" "" 0 (some 7) [])).1 =
      DirectorySingle.mk "r" "" 0 none [] := by
  constructor
  · exact (merge_validation_failure_atomic
      (DirectoryMulti.mk "r" "" 0 [] [("a", DirectoryMulti.new)])
      (DirectoryMulti.mk "g" "" 0 [] [("a", DirectoryMulti.new)])
      (DirectorySingle.new : DirectorySingle Nat) DirectorySingle.new).1
      "a" rfl
  · exact (merge_validation_failure_atomic
      (DirectoryMulti.new : DirectoryMulti Nat) DirectoryMulti.new
      (DirectorySingle.mk "r" "" 0 none [])
      (DirectorySingle.mk "g" "" 0 (some 7) [])).2.2.2 rfl

/-- Deep invariant: no children mapping anywhere in the tree stores the
reserved key ".". -/
inductive NoDotDirs {T : Type} : DirectoryMulti T → Prop where
  | intro (n p : String) (dep : Nat) (f : List (String × T))
      (ds : List (String × DirectoryMulti T)) :
      (∀ kv ∈ ds, kv.1 ≠ ".") →
      (∀ kv ∈ ds, NoDotDirs kv.2) →
      NoDotDirs (.mk n p dep f ds)

theorem noDotDirs_children {T : Type} {d : DirectoryMulti T}
    (h : NoDotDirs d) : ∀ kv ∈ d.directory, kv.1 ≠ "." ∧ NoDotDirs kv.2 := by
  cases h with
  | intro n p dep f ds hkeys hsub =>
    intro kv hm
    exact ⟨hkeys kv hm, hsub kv hm⟩

theorem noDotDirs_of_children {T : Type} {d : DirectoryMulti T}
    (h : ∀ kv ∈ d.directory, kv.1 ≠ "." ∧ NoDotDirs kv.2) : NoDotDirs d := by
  cases d with
  | mk n p dep f ds =>
    exact NoDotDirs.intro n p dep f ds (fun kv hm => (h kv hm).1)
      (fun kv hm => (h kv hm).2)

theorem noDotDirs_setFile {T : Type} {d : DirectoryMulti T}
    (h : NoDotDirs d) (f : List (String × T)) : NoDotDirs (d.setFile f) := by
  cases d with
  | mk n p dep f0 ds =>
    have hall := noDotDirs_children h
    exact NoDotDirs.intro n p dep f ds (fun kv hm => (hall kv hm).1)
      (fun kv hm => (hall kv hm).2)

theorem noDotDirs_stamp {T : Type} {d : DirectoryMulti T}
    (h : NoDotDirs d) (n p : String) (dep : Nat) :
    NoDotDirs (d.stamp n p dep) := by
  cases d with
  | mk n0 p0 dep0 f ds =>
    have hall := noDotDirs_children h
    exact NoDotDirs.intro n p dep f ds (fun kv hm => (hall kv hm).1)
      (fun kv hm => (hall kv hm).2)

theorem noDotDirs_setDirectory {T : Type} {d : DirectoryMulti T}
    {ds : List (String × DirectoryMulti T)}
    (h : ∀ kv ∈ ds, kv.1 ≠ "." ∧ NoDotDirs kv.2) :
    NoDotDirs (d.setDirectory ds) := by
  cases d with
  | mk n p dep f ds0 =>
    exact NoDotDirs.intro n p dep f ds (fun kv hm => (h kv hm).1)
      (fun kv hm => (h kv hm).2)

theorem insertKey_good {T : Type} {l : List (String × DirectoryMulti T)}
    {k : String} {v : DirectoryMulti T}
    (hl : ∀ kv ∈ l, kv.1 ≠ "." ∧ NoDotDirs kv.2)
    (hk : k ≠ ".") (hv : NoDotDirs v) :
    ∀ kv ∈ insertKey l k v, kv.1 ≠ "." ∧ NoDotDirs kv.2 := by
  intro kv hm
  rw [insertKey] at hm
  by_cases hc : containsKey l k
  · rw [if_pos hc] at hm
    rcases List.mem_map.mp hm with ⟨kv0, hkv0, he⟩
    by_cases heq : kv0.1 = k
    · rw [if_pos heq] at he
      rw [← he]
      exact ⟨hk, hv⟩
    · rw [if_neg heq] at he
      rw [← he]
      exact hl kv0 hkv0
  · rw [if_neg hc] at hm
    rcases List.mem_append.mp hm with hm1 | hm2
    · exact hl kv hm1
    · rcases List.mem_singleton.mp hm2 with rfl
      exact ⟨hk, hv⟩

theorem removeKey_sublist_mem {α : Type} {l : List (String × α)}
    {k : String} {kv : String × α} (hm : kv ∈ removeKey l k) : kv ∈ l := by
  induction l with
  | nil => exact absurd hm (by simp [removeKey])
  | cons kv0 rest ih =>
    rw [removeKey] at hm
    by_cases hk : kv0.1 = k
    · rw [if_pos hk] at hm
      exact List.mem_cons_of_mem _ hm
    · rw [if_neg hk] at hm
      rcases List.mem_cons.mp hm with h1 | h2
      · rw [h1]
        exact List.mem_cons_self _ _
      · exact List.mem_cons_of_mem _ (ih h2)

theorem genLoop_ok_shape {α : Type} (l : List (String × α)) (len : Nat) :
    ∀ (k i : Nat) (s0 g : String), 100 - i = k →
    genLoop l len i (".||#:" ++ s0) = .ok g → ∃ s, g = ".||#:" ++ s := by
  intro k
  induction k with
  | zero =>
    intro i s0 g hk h
    by_cases hc : containsKey l (".||#:" ++ s0) = true
    · rw [genLoop_exhausted len hc (by omega)] at h
      cases h
    · rw [genLoop_free len i (by simpa using hc)] at h
      cases h
      exact ⟨s0, rfl⟩
  | succ k ih =>
    intro i s0 g hk h
    by_cases hc : containsKey l (".||#:" ++ s0) = true
    · rw [genLoop_step len hc (by omega)] at h
      exact ih (i + 1) (toString (len + i)) g (by omega) h
    · rw [genLoop_free len i (by simpa using hc)] at h
      cases h
      exact ⟨s0, rfl⟩

theorem addDirectory_noDot {T : Type} {d c : DirectoryMulti T} (n : String)
    (hd : NoDotDirs d) (hc : NoDotDirs c) :
    NoDotDirs (d.addDirectory n c).1 := by
  rw [DirectoryMulti.addDirectory]
  by_cases hne : n = ""
  · simp only [hne, not_true_eq_false, if_false, reduceIte]
    cases hg : genLoop d.directory d.directory.length 0
        (".||#:" ++ toString d.directory.length) with
    | error e => exact hd
    | ok g =>
      simp only
      rcases genLoop_ok_shape d.directory d.directory.length 100 0 _ g rfl hg
        with ⟨s, rfl⟩
      exact noDotDirs_setDirectory (insertKey_good (noDotDirs_children hd)
        (genName_ne_dot s) (noDotDirs_stamp hc _ _ _))
  · by_cases hdot : n = "."
    · simp only [hne, hdot, if_true, not_false_eq_true]
      exact hd
    · by_cases hcont : containsKey d.directory n = false
      · simp only [hne, hdot, hcont, not_false_eq_true, if_true, if_false,
          reduceIte]
        exact noDotDirs_setDirectory (insertKey_good (noDotDirs_children hd)
          hdot (noDotDirs_stamp hc _ _ _))
      · simp only [hne, hdot, hcont, not_false_eq_true, if_true, if_false,
          reduceIte]
        exact hd

theorem obtainMutApply_noDot {T α : Type}
    {f : DirectoryMulti T → DirectoryMulti T × Except PathioError α}
    {Q : α → Prop}
    (hf : ∀ s, NoDotDirs s → NoDotDirs (f s).1 ∧
      (∀ a, (f s).2 = .ok a → Q a)) :
    ∀ (d : DirectoryMulti T) (n : String), NoDotDirs d →
    NoDotDirs (DirectoryMulti.obtainMutApply f d n).1 ∧
    (∀ a, (DirectoryMulti.obtainMutApply f d n).2 = .ok a → Q a) := by
  intro d n hd
  rw [DirectoryMulti.obtainMutApply]
  by_cases hne : n = ""
  · simp only [hne, not_true_eq_false, if_false, reduceIte]
    exact ⟨hd, by intro a ha; cases ha⟩
  · by_cases hdot : n = "."
    · simp only [hne, hdot, not_false_eq_true, if_true]
      exact hf d hd
    · simp only [hne, hdot, not_false_eq_true, if_true, if_false, reduceIte]
      cases hl : lookupKey d.directory n with
      | some sub =>
        simp only
        have hsub : NoDotDirs sub :=
          (noDotDirs_children hd _ (lookupKey_mem hl)).2
        have hfs := hf sub hsub
        constructor
        · exact noDotDirs_setDirectory (insertKey_good (noDotDirs_children hd)
            hdot hfs.1)
        · exact hfs.2
      | none =>
        simp only
        exact ⟨hd, by intro a ha; cases ha⟩

theorem walkFirst_noDot {T α : Type}
    {base : DirectoryMulti T → String → DirectoryMulti T × Except PathioError α}
    {Q : α → Prop}
    (hbase : ∀ s n, NoDotDirs s → NoDotDirs (base s n).1 ∧
      (∀ a, (base s n).2 = .ok a → Q a)) :
    ∀ (k : Nat) (p : String), p.data.length ≤ k →
    ∀ (d : DirectoryMulti T), NoDotDirs d →
    NoDotDirs (DirectoryMulti.walkFirst base d p).1 ∧
    (∀ a, (DirectoryMulti.walkFirst base d p).2 = .ok a → Q a) := by
  intro k
  induction k with
  | zero =>
    intro p hp d hd
    have hnil : p.data = [] := List.length_eq_zero.mp (Nat.le_zero.mp hp)
    have hsp : splitOnce p = none := by
      rw [splitOnce, hnil]
      rfl
    rw [walkFirst_last base d hsp]
    exact hbase d p hd
  | succ k ih =>
    intro p hp d hd
    cases hsp : splitOnce p with
    | none =>
      rw [walkFirst_last base d hsp]
      exact hbase d p hd
    | some br =>
      rcases br with ⟨branch, rest⟩
      have hlen : rest.data.length ≤ k := by
        have := splitOnce_some_length hsp
        omega
      rw [walkFirst_descend base d hsp]
      by_cases hne : branch = ""
      · simp only [hne, not_true_eq_false, if_false, reduceIte]
        exact ⟨hd, by intro a ha; cases ha⟩
      · by_cases hdot : branch = "."
        · simp only [hne, hdot, not_false_eq_true, if_true]
          exact ih rest hlen d hd
        · simp only [hne, hdot, not_false_eq_true, if_true, if_false,
            reduceIte]
          cases hl : lookupKey d.directory branch with
          | some sub =>
            simp only
            have hsub : NoDotDirs sub :=
              (noDotDirs_children hd _ (lookupKey_mem hl)).2
            have hrec := ih rest hlen sub hsub
            constructor
            · exact noDotDirs_setDirectory
                (insertKey_good (noDotDirs_children hd) hdot hrec.1)
            · exact hrec.2
          | none =>
            simp only
            exact ⟨hd, by intro a ha; cases ha⟩

theorem modifyAtPath_noDot {T α : Type}
    {f : DirectoryMulti T → DirectoryMulti T × Except PathioError α}
    {Q : α → Prop}
    (hf : ∀ s, NoDotDirs s → NoDotDirs (f s).1 ∧
      (∀ a, (f s).2 = .ok a → Q a)) (d : DirectoryMulti T) (p : String)
    (hd : NoDotDirs d) :
    NoDotDirs (DirectoryMulti.modifyAtPath f d p).1 ∧
    (∀ a, (DirectoryMulti.modifyAtPath f d p).2 = .ok a → Q a) := by
  rw [DirectoryMulti.modifyAtPath]
  exact walkFirst_noDot (obtainMutApply_noDot hf) p.data.length p le_rfl d hd

theorem takeDirectory_noDot {T : Type} {d : DirectoryMulti T} (n : String)
    (hd : NoDotDirs d) :
    NoDotDirs (d.takeDirectory n).1 ∧
    (∀ c, (d.takeDirectory n).2 = .ok c → NoDotDirs c) := by
  rw [DirectoryMulti.takeDirectory]
  cases hl : lookupKey d.directory n with
  | some c =>
    simp only
    constructor
    · exact noDotDirs_setDirectory
        (fun kv hm => noDotDirs_children hd kv (removeKey_sublist_mem hm))
    · intro c2 hc2
      cases hc2
      exact (noDotDirs_children hd _ (lookupKey_mem hl)).2
  | none =>
    simp only
    exact ⟨hd, by intro c hc; cases hc⟩

theorem takeFile_noDot {T : Type} {d : DirectoryMulti T} (n : String)
    (hd : NoDotDirs d) : NoDotDirs (d.takeFile n).1 := by
  rw [DirectoryMulti.takeFile]
  cases hl : lookupKey d.file n with
  | some v => exact noDotDirs_setFile hd _
  | none => exact hd

theorem addFile_noDot {T : Type} {d : DirectoryMulti T} (n : String) (v : T)
    (hd : NoDotDirs d) : NoDotDirs (d.addFile n v).1 := by
  rw [DirectoryMulti.addFile]
  by_cases hc : containsKey d.file n = false
  · simp only [hc, if_true, reduceIte]
    exact noDotDirs_setFile hd _
  · simp only [hc, if_false, reduceIte]
    exact hd

theorem insertDirectory_noDot {T : Type} {d c : DirectoryMulti T} (p : String)
    (hd : NoDotDirs d) (hc : NoDotDirs c) :
    NoDotDirs (d.insertDirectory p c).1 := by
  rw [DirectoryMulti.insertDirectory]
  cases hr : rsplitOnce p with
  | none => exact addDirectory_noDot p hd hc
  | some pr =>
    rcases pr with ⟨dirPath, n⟩
    exact (modifyAtPath_noDot (Q := fun _ => True)
      (fun s hs => ⟨addDirectory_noDot n hs hc, fun a ha => trivial⟩)
      d dirPath hd).1

theorem insertFile_noDot {T : Type} {d : DirectoryMulti T} (p : String) (v : T)
    (hd : NoDotDirs d) : NoDotDirs (d.insertFile p v).1 := by
  rw [DirectoryMulti.insertFile]
  cases hr : rsplitOnce p with
  | none => exact addFile_noDot p v hd
  | some pr =>
    rcases pr with ⟨dirPath, n⟩
    exact (modifyAtPath_noDot (Q := fun _ => True)
      (fun s hs => ⟨addFile_noDot n v hs, fun a ha => trivial⟩)
      d dirPath hd).1

theorem applyFiles_noDot {T : Type} :
    ∀ (fs : List (String × T)) (d : DirectoryMulti T), NoDotDirs d →
    NoDotDirs (DirectoryMulti.applyFiles d fs).1 := by
  intro fs
  induction fs with
  | nil =>
    intro d hd
    exact hd
  | cons kv rest ih =>
    intro d hd
    rcases kv with ⟨n, v⟩
    rw [DirectoryMulti.applyFiles]
    cases hi : d.insertFile n v with
    | mk s r =>
      have hs : NoDotDirs s := by
        have := insertFile_noDot n v hd
        rw [hi] at this
        exact this
      cases r with
      | ok u => exact ih s hs
      | error e => exact hs

theorem applyDirs_noDot {T : Type} :
    ∀ (gs : List (String × DirectoryMulti T)) (d : DirectoryMulti T),
    NoDotDirs d → (∀ kv ∈ gs, NoDotDirs kv.2) →
    NoDotDirs (DirectoryMulti.applyDirs d gs).1 := by
  intro gs
  induction gs with
  | nil =>
    intro d hd hall
    exact hd
  | cons kv rest ih =>
    intro d hd hall
    rcases kv with ⟨n, c⟩
    rw [DirectoryMulti.applyDirs]
    cases hi : d.insertDirectory n c with
    | mk s r =>
      have hs : NoDotDirs s := by
        have := insertDirectory_noDot n hd (hall (n, c) (List.mem_cons_self _ _))
        rw [hi] at this
        exact this
      cases r with
      | ok u => exact ih s hs (fun kv hm => hall kv (List.mem_cons_of_mem _ hm))
      | error e => exact hs

theorem merge_noDot {T : Type} {s g : DirectoryMulti T}
    (hs : NoDotDirs s) (hg : NoDotDirs g) : NoDotDirs (s.merge g).1 := by
  rw [DirectoryMulti.merge]
  cases hf1 : g.file.find? (fun kv => containsKey s.file kv.1) with
  | some kv => exact hs
  | none =>
    cases hf2 : g.directory.find? (fun kv => containsKey s.directory kv.1) with
    | some kv => exact hs
    | none =>
      cases ha : DirectoryMulti.applyFiles s g.file with
      | mk s2 r =>
        have hs2 : NoDotDirs s2 := by
          have := applyFiles_noDot g.file s hs
          rw [ha] at this
          exact this
        cases r with
        | ok u =>
          exact applyDirs_noDot g.directory s2 hs2
            (fun kv hm => (noDotDirs_children hg kv hm).2)
        | error e => exact hs2

theorem removeDirectory_noDot {T : Type} {d : DirectoryMulti T} (p : String)
    (hd : NoDotDirs d) :
    NoDotDirs (d.removeDirectory p).1 ∧
    (∀ c, (d.removeDirectory p).2 = .ok c → NoDotDirs c) := by
  rw [DirectoryMulti.removeDirectory]
  exact walkFirst_noDot (fun s n hs => takeDirectory_noDot n hs)
    p.data.length p le_rfl d hd

theorem removeFile_noDot {T : Type} {d : DirectoryMulti T} (p : String)
    (hd : NoDotDirs d) : NoDotDirs (d.removeFile p).1 := by
  rw [DirectoryMulti.removeFile]
  exact (walkFirst_noDot (Q := fun _ => True)
    (fun s n hs => ⟨takeFile_noDot n hs, fun a ha => trivial⟩)
    p.data.length p le_rfl d hd).1

/-- States reachable by sequences of public operations from fresh
directories.  Every mutating operation can be invoked directly on a tree
(path ".") or on any subdirectory obtained through `borrow_directory_mut`
(an arbitrary path), which `modifyAtPath` models; directory arguments are
themselves reachable, and subtrees returned by take/remove become reachable
values the caller may re-insert. -/
inductive Reachable {T : Type} : DirectoryMulti T → Prop where
  | fresh (n p : String) (dep : Nat) : Reachable (.mk n p dep [] [])
  | addDirAt {d c : DirectoryMulti T} (n p : String) :
      Reachable d → Reachable c →
      Reachable (DirectoryMulti.modifyAtPath (fun s => s.addDirectory n c) d p).1
  | insertDirAt {d c : DirectoryMulti T} (q p : String) :
      Reachable d → Reachable c →
      Reachable (DirectoryMulti.modifyAtPath (fun s => s.insertDirectory q c) d p).1
  | createDirAt {d : DirectoryMulti T} (q p : String) : Reachable d →
      Reachable (DirectoryMulti.modifyAtPath (fun s => s.createDirectory q) d p).1
  | takeDirAt {d : DirectoryMulti T} (n p : String) : Reachable d →
      Reachable (DirectoryMulti.modifyAtPath (fun s => s.takeDirectory n) d p).1
  | takeDirOut {d c : DirectoryMulti T} (n p : String) : Reachable d →
      (DirectoryMulti.modifyAtPath (fun s => s.takeDirectory n) d p).2 = .ok c →
      Reachable c
  | removeDirAt {d : DirectoryMulti T} (q p : String) : Reachable d →
      Reachable (DirectoryMulti.modifyAtPath (fun s => s.removeDirectory q) d p).1
  | removeDirOut {d c : DirectoryMulti T} (q p : String) : Reachable d →
      (DirectoryMulti.modifyAtPath (fun s => s.removeDirectory q) d p).2 = .ok c →
      Reachable c
  | mergeAt {d g : DirectoryMulti T} (p : String) : Reachable d → Reachable g →
      Reachable (DirectoryMulti.modifyAtPath (fun s => s.merge g) d p).1
  | addFileAt {d : DirectoryMulti T} (n p : String) (v : T) : Reachable d →
      Reachable (DirectoryMulti.modifyAtPath (fun s => s.addFile n v) d p).1
  | insertFileAt {d : DirectoryMulti T} (q p : String) (v : T) : Reachable d →
      Reachable (DirectoryMulti.modifyAtPath (fun s => s.insertFile q v) d p).1
  | takeFileAt {d : DirectoryMulti T} (n p : String) : Reachable d →
      Reachable (DirectoryMulti.modifyAtPath (fun s => s.takeFile n) d p).1
  | removeFileAt {d : DirectoryMulti T} (q p : String) : Reachable d →
      Reachable (DirectoryMulti.modifyAtPath (fun s => s.removeFile q) d p).1

/-- C3 (amended): in every reachable Multi-policy tree, the reserved name "."
is never a key of any children mapping, at any depth.  (The original claim
also asserted this for the Multi value mapping, which is false: `add_file`
does not reject ".", see the counterexample.) -/
theorem reachable_no_dot_child_key {T : Type} (d : DirectoryMulti T)
    (h : Reachable d) : NoDotDirs d := by
  induction h with
  | fresh n p dep => exact NoDotDirs.intro n p dep [] [] (by simp) (by simp)
  | addDirAt n p hd hc ihd ihc =>
    exact (modifyAtPath_noDot (Q := fun _ => True)
      (fun s hs => ⟨addDirectory_noDot n hs ihc, fun a ha => trivial⟩)
      _ p ihd).1
  | insertDirAt q p hd hc ihd ihc =>
    exact (modifyAtPath_noDot (Q := fun _ => True)
      (fun s hs => ⟨insertDirectory_noDot q hs ihc, fun a ha => trivial⟩)
      _ p ihd).1
  | createDirAt q p hd ihd =>
    have hnew : NoDotDirs (DirectoryMulti.new : DirectoryMulti T) :=
      NoDotDirs.intro _ _ _ _ _ (by simp) (by simp)
    exact (modifyAtPath_noDot (Q := fun _ => True)
      (fun s hs => ⟨insertDirectory_noDot q hs hnew, fun a ha => trivial⟩)
      _ p ihd).1
  | takeDirAt n p hd ihd =>
    exact (modifyAtPath_noDot
      (fun s hs => takeDirectory_noDot n hs) _ p ihd).1
  | takeDirOut n p hd hok ihd =>
    exact (modifyAtPath_noDot
      (fun s hs => takeDirectory_noDot n hs) _ p ihd).2 _ hok
  | removeDirAt q p hd ihd =>
    exact (modifyAtPath_noDot
      (fun s hs => removeDirectory_noDot q hs) _ p ihd).1
  | removeDirOut q p hd hok ihd =>
    exact (modifyAtPath_noDot
      (fun s hs => removeDirectory_noDot q hs) _ p ihd).2 _ hok
  | mergeAt p hd hg ihd ihg =>
    exact (modifyAtPath_noDot (Q := fun _ => True)
      (fun s hs => ⟨merge_noDot hs ihg, fun a ha => trivial⟩) _ p ihd).1
  | addFileAt n p v hd ihd =>
    exact (modifyAtPath_noDot (Q := fun _ => True)
      (fun s hs => ⟨addFile_noDot n v hs, fun a ha => trivial⟩) _ p ihd).1
  | insertFileAt q p v hd ihd =>
    exact (modifyAtPath_noDot (Q := fun _ => True)
      (fun s hs => ⟨insertFile_noDot q v hs, fun a ha => trivial⟩) _ p ihd).1
  | takeFileAt n p hd ihd =>
    exact (modifyAtPath_noDot (Q := fun _ => True)
      (fun s hs => ⟨takeFile_noDot n hs, fun a ha => trivial⟩) _ p ihd).1
  | removeFileAt q p hd ihd =>
    exact (modifyAtPath_noDot (Q := fun _ => True)
      (fun s hs => ⟨removeFile_noDot q hs, fun a ha => trivial⟩) _ p ihd).1

/-- C3 counterexample: one public operation on a fresh Multi tree stores "."
as a key of the value mapping — `add_file(".", 7)` does not reject the
reserved name, so "." does appear as a stored key in a reachable state. -/
theorem dot_file_key_reachable :
    Reachable ((DirectoryMulti.newRoot "r" : DirectoryMulti Nat).addFile "." 7).1 ∧
    containsKey ((DirectoryMulti.newRoot "r" :
      DirectoryMulti Nat).addFile "." 7).1.file "." = true := by
  have heq : (DirectoryMulti.modifyAtPath
      (fun s => s.addFile "." 7)
      (DirectoryMulti.newRoot "r" : DirectoryMulti Nat) ".").1 =
      ((DirectoryMulti.newRoot "r" : DirectoryMulti Nat).addFile "." 7).1 := by
    rw [DirectoryMulti.modifyAtPath,
      walkFirst_last _ _ (show splitOnce "." = none from rfl)]
    rfl
  constructor
  · rw [← heq]
    exact Reachable.addFileAt "." "." 7 (Reachable.fresh "r" "" 0)
  · rfl

/-- C3 witness: a nontrivial reachable state (root with one added
subdirectory "a") satisfies the children-key invariant. -/
theorem reachable_no_dot_child_key_witness :
    Reachable (DirectoryMulti.modifyAtPath
      (fun s => s.addDirectory "a" DirectoryMulti.new)
      (DirectoryMulti.newRoot "r" : DirectoryMulti Nat) ".").1 ∧
    NoDotDirs (DirectoryMulti.modifyAtPath
      (fun s => s.addDirectory "a" DirectoryMulti.new)
      (DirectoryMulti.newRoot "r" : DirectoryMulti Nat) ".").1 := by
  have hr : Reachable (DirectoryMulti.modifyAtPath
      (fun s => s.addDirectory "a" DirectoryMulti.new)
      (DirectoryMulti.newRoot "r" : DirectoryMulti Nat) ".").1 :=
    Reachable.addDirAt "a" "." (Reachable.fresh "r" "" 0)
      (Reachable.fresh "UNASSIGNED DIRECTORY" "EMPTY PATH" 0)
  exact ⟨hr, reachable_no_dot_child_key _ hr⟩
